import Mathlib

/-!
Shallow embedding of the NILM (non-intrusive load monitoring) engine of the
solar-dashboard repository (src/nilm_engine.py, table schemas from
src/app.py `init_db`).

Modelling conventions:
* Python floats are modelled as exact rationals (ℚ); Python's `round(x, n)`
  (round half to even) is modelled by `pyRound`/`roundTo`.
* SQL rows are Lean structures; each table is a list kept in rowid
  (insertion) order.  `ORDER BY timestamp ASC` is modelled by a stable
  insertion sort (sqlite returns equal keys in rowid order here).
* Timestamp strings ("%Y-%m-%d %H:%M:%S", compared lexicographically and
  subtracted via datetime) are modelled as integer epoch seconds; a calendar
  date is the integer day index `dayOf`.
* The sqlite AUTOINCREMENT counters of `load_events` and
  `appliance_signatures` are the `next_event_id` / `next_sig_id` fields of
  `DB` (DELETE FROM does not reset them).
* The in-memory module state (`_recent_loads`, `_recent_l1`, `_recent_l2`,
  `_stable_level`, `_last_event_time`) is the `Detector` structure; the
  wall clock is passed explicitly (`today` for `datetime.now()` dates, the
  event timestamp argument for `time.time()` / `override_timestamp`).
-/

namespace Nilm

/-- Python `round` to an integer: round half to even.  (The fractional part
`q - ⌊q⌋` is compared with 1/2; the comparisons are phrased without
subtraction as `2*q ≶ 2*⌊q⌋ + 1`.) -/
def pyRound (q : ℚ) : ℤ :=
  let f := ⌊q⌋
  if 2 * q < 2 * f + 1 then f
  else if 2 * f + 1 < 2 * q then f + 1
  else if 2 ∣ f then f else f + 1

/-- Python `round(q, n)`: round to `n` decimal places, half to even. -/
def roundTo (n : ℕ) (q : ℚ) : ℚ :=
  (pyRound (q * 10 ^ n) : ℚ) / 10 ^ n

/-- Day index of an epoch-second timestamp (the "%Y-%m-%d" calendar date). -/
def dayOf (ts : ℤ) : ℤ := ts / 86400

-- Constants of nilm_engine.py
def EDGE_THRESHOLD : ℚ := 20
def SMOOTHING_WINDOW : ℕ := 3
def DEBOUNCE_SECONDS : ℤ := 10
def SIGNATURE_TOLERANCE : ℚ := 3/10
def INVERTER_IDLE_LOAD : ℚ := 70
def MAX_PAIRING_HOURS : ℤ := 12

inductive Leg where
  | both | l1 | l2
deriving DecidableEq, Repr

inductive EvType where
  | on | off
deriving DecidableEq, Repr

/-- Row of `appliance_signatures`. -/
structure Signature where
  id : ℕ
  power_avg : ℚ
  power_min : ℚ
  power_max : ℚ
  leg_pattern : Leg
  event_count : ℕ
  user_label : String
  icon : String
  color : String
  is_active : Bool
  active_count : ℤ
  last_on_time : Option ℤ
  avg_duration : ℚ
  daily_cycles : ℚ
deriving DecidableEq, Repr

/-- Row of `load_events`.  `duration = none` is SQL NULL (unresolved);
`some (-1)` is the stale sentinel. -/
structure LoadEvent where
  id : ℕ
  timestamp : ℤ
  event_type : EvType
  power_delta : ℚ
  leg : Leg
  duration : Option ℤ
  signature_id : ℕ
  confidence : ℚ
deriving DecidableEq, Repr

/-- Row of `appliance_daily_stats`, PRIMARY KEY (date, signature_id). -/
structure DailyStat where
  date : ℤ
  signature_id : ℕ
  cycles : ℕ
  total_duration : ℤ
  energy_kwh : ℚ
deriving DecidableEq, Repr

/-- Row of `load_samples` (timestamp is the primary key). -/
structure SampleRow where
  timestamp : ℤ
  load_total : ℚ
  load_l1 : ℚ
  load_l2 : ℚ
  smoothed_total : ℚ
deriving DecidableEq, Repr

/-- The sqlite database state relevant to the engine. -/
structure DB where
  signatures : List Signature
  events : List LoadEvent
  daily_stats : List DailyStat
  samples : List SampleRow
  next_sig_id : ℕ
  next_event_id : ℕ
deriving DecidableEq, Repr

/-- In-memory detector state (module globals of nilm_engine.py).
Rolling windows are kept most-recent-first, so `_recent_loads[-1]` is the
head. -/
structure Detector where
  recent_loads : List ℚ
  recent_l1 : List ℚ
  recent_l2 : List ℚ
  stable_level : Option ℚ
  last_event_time : ℤ
deriving DecidableEq, Repr

/-- Append to a deque with maxlen = SMOOTHING_WINDOW (most-recent-first). -/
def pushWindow (x : ℚ) (w : List ℚ) : List ℚ :=
  (x :: w).take SMOOTHING_WINDOW

/-- `_smooth`: arithmetic mean of the rolling window (0 for an empty one). -/
def smooth (values : List ℚ) : ℚ :=
  if values = [] then 0 else values.sum / values.length

/-- `_suggest_label`. -/
def suggest_label (power : ℚ) : String :=
  let p := |power|
  if p < 50 then "Small Device"
  else if p < 200 then "Medium Device"
  else if p < 800 then "Appliance"
  else if p < 2000 then "Heater/Cooler"
  else "Major Appliance"

/-- `_suggest_icon` (emoji code points kept abstract as names). -/
def suggest_icon (power : ℚ) : String :=
  let p := |power|
  if p < 50 then "plug"
  else if p < 200 then "snowflake"
  else if p < 800 then "tv"
  else if p < 2000 then "fire"
  else "lightning"

/-- `_suggest_color`. -/
def suggest_color (power : ℚ) : String :=
  let p := |power|
  if p < 50 then "#60a5fa"
  else if p < 200 then "#22c55e"
  else if p < 800 then "#f59e0b"
  else if p < 2000 then "#ef4444"
  else "#a855f7"

/-- The five auto-generated placeholder labels of `_restore_user_labels`. -/
def autoLabels : List String :=
  ["Small Device", "Medium Device", "Appliance", "Heater/Cooler", "Major Appliance"]

/-- SELECT ... FROM appliance_signatures WHERE id = ?. -/
def sigById (db : DB) (i : ℕ) : Option Signature :=
  db.signatures.find? (fun s => s.id == i)

/-- Stable insertion sort by an integer key: models `ORDER BY timestamp ASC`
(sqlite returns equal keys in rowid order for these scans). -/
def insertByKey {α : Type} (key : α → ℤ) (e : α) : List α → List α
  | [] => [e]
  | x :: xs => if key x < key e then x :: insertByKey key e xs else e :: x :: xs

def sortByKey {α : Type} (key : α → ℤ) (l : List α) : List α :=
  l.foldr (insertByKey key) []

/-- `find_matching_signature` scan step: keep the qualifying signature with
the strictly smallest difference (carries (id, best_diff)). -/
def findStep (power_delta : ℚ) (best : Option (ℕ × ℚ)) (s : Signature) : Option (ℕ × ℚ) :=
  let diff := |power_delta - s.power_avg|
  let tol := s.power_avg * SIGNATURE_TOLERANCE
  match best with
  | none => if diff ≤ tol then some (s.id, diff) else none
  | some (bi, bd) => if diff ≤ tol ∧ diff < bd then some (s.id, diff) else some (bi, bd)

/-- `find_matching_signature(db_path, power_delta, leg)` (the `leg` argument
is unused in the source as well). -/
def find_matching_signature (db : DB) (power_delta : ℚ) : Option ℕ :=
  (db.signatures.foldl (findStep power_delta) none).map Prod.fst

/-- `create_signature`: INSERT a fresh signature row (AUTOINCREMENT id;
`active_count` takes its schema DEFAULT 0). -/
def create_signature (db : DB) (power_delta : ℚ) (leg : Leg) : ℕ × DB :=
  let sid := db.next_sig_id
  (sid,
   { db with
      signatures := db.signatures ++
        [{ id := sid, power_avg := power_delta, power_min := power_delta,
           power_max := power_delta, leg_pattern := leg, event_count := 1,
           user_label := suggest_label power_delta, icon := suggest_icon power_delta,
           color := suggest_color power_delta, is_active := false, active_count := 0,
           last_on_time := none, avg_duration := 0, daily_cycles := 0 }],
      next_sig_id := sid + 1 })

/-- `update_signature`: running average (rounded to one decimal), min/max,
event count.  A missing id is a no-op. -/
def update_signature (db : DB) (signature_id : ℕ) (power_delta : ℚ) : DB :=
  { db with
    signatures := db.signatures.map (fun s =>
      if s.id = signature_id then
        { s with
          power_avg := roundTo 1 ((s.power_avg * s.event_count + power_delta) / (s.event_count + 1)),
          power_min := min s.power_min power_delta,
          power_max := max s.power_max power_delta,
          event_count := s.event_count + 1 }
      else s) }

/-- One row of the pairing candidate query
(SELECT e.id, e.timestamp, e.power_delta, s.power_avg ... JOIN). -/
structure Cand where
  id : ℕ
  ts : ℤ
  delta : ℚ
  avg : ℚ
deriving DecidableEq, Repr

/-- The candidate rows of `pair_on_off_event`: unpaired on-events within the
lookback window, joined with their signature, ordered by timestamp. -/
def pairCandidates (db : DB) (off_ts : ℤ) : List Cand :=
  let cutoff := off_ts - MAX_PAIRING_HOURS * 3600
  (sortByKey LoadEvent.timestamp
    (db.events.filter (fun e =>
      decide (e.event_type = EvType.on ∧ e.duration = none ∧ cutoff ≤ e.timestamp)))).filterMap
    (fun e => (sigById db e.signature_id).map
      (fun s => { id := e.id, ts := e.timestamp, delta := e.power_delta, avg := s.power_avg }))

/-- Power-similarity distance used by the pairing scan. -/
def pairScore (off_power : ℚ) (c : Cand) : ℚ :=
  min |off_power - c.delta| |off_power - c.avg|

/-- Pairing scan step: carries (`row` = (event id, timestamp), `best_diff`),
mirroring the `row` / `best_diff` variables of the source. -/
def pairStep (off_power : ℚ) (best : Option ((ℕ × ℤ) × ℚ)) (c : Cand) :
    Option ((ℕ × ℤ) × ℚ) :=
  let diff := pairScore off_power c
  match best with
  | none => some ((c.id, c.ts), diff)
  | some (row, bd) => if diff < bd then some ((c.id, c.ts), diff) else some (row, bd)

/-- `_update_avg_duration`: running average cycle duration with cycle count
`max 1 (event_count / 2)` (integer division). -/
def update_avg_duration (db : DB) (signature_id : ℕ) (new_duration : ℤ) : DB :=
  { db with
    signatures := db.signatures.map (fun s =>
      if s.id = signature_id then
        let cycles : ℕ := max 1 (s.event_count / 2)
        { s with avg_duration :=
            roundTo 1 ((s.avg_duration * ((cycles : ℚ) - 1) + new_duration) / cycles) }
      else s) }

/-- `pair_on_off_event`: find the unpaired on-event with the closest power
match (FIFO on ties), accept within `max(off_power*0.4, 40)`, write the
duration back to the on-event and return it. -/
def pair_on_off_event (db : DB) (signature_id : ℕ) (off_ts : ℤ) (off_power : ℚ) :
    DB × Option ℤ :=
  let op := if off_power ≤ 0 then ((sigById db signature_id).map Signature.power_avg).getD 0
            else off_power
  match (pairCandidates db off_ts).foldl (pairStep op) none with
  | none => (db, none)
  | some (row, best_diff) =>
    if max (op * (4/10)) 40 < best_diff then (db, none)
    else
      let duration := off_ts - row.2
      let db1 := { db with
        events := db.events.map (fun e =>
          if e.id = row.1 then { e with duration := some duration } else e) }
      (update_avg_duration db1 signature_id duration, some duration)

/-- `_update_signature_active_state`. -/
def update_signature_active_state (db : DB) (signature_id : ℕ) (event_type : EvType)
    (ts : ℤ) (power_delta : ℚ) : DB :=
  match event_type with
  | EvType.on =>
    { db with signatures := db.signatures.map (fun s =>
        if s.id = signature_id then
          { s with is_active := true, active_count := s.active_count + 1,
                   last_on_time := some ts }
        else s) }
  | EvType.off =>
    let fallback : DB :=
      if 0 < power_delta then
        match db.signatures.find? (fun s =>
            s.is_active && decide (|power_delta - s.power_avg| ≤
              max (s.power_avg * SIGNATURE_TOLERANCE) EDGE_THRESHOLD)) with
        | some t =>
          let oc : ℤ := if t.active_count = 0 then 1 else t.active_count
          let nc := oc - 1
          { db with signatures := db.signatures.map (fun s =>
              if s.id = t.id then
                if nc ≤ 0 then { s with is_active := false, active_count := 0 }
                else { s with active_count := nc }
              else s) }
        | none => db
      else db
    match db.signatures.find? (fun s => s.id == signature_id && s.is_active) with
    | some s0 =>
      if 0 < s0.active_count then
        let nc := s0.active_count - 1
        { db with signatures := db.signatures.map (fun s =>
            if s.id = signature_id then
              if nc ≤ 0 then { s with is_active := false, active_count := 0 }
              else { s with active_count := nc }
            else s) }
      else fallback
    | none => fallback

/-- `_update_daily_cycles`: AVG(cycles) over the signature's stats rows;
skipped when there are no rows or the average is 0 (Python truthiness). -/
def update_daily_cycles (db : DB) (signature_id : ℕ) : DB :=
  let rows := db.daily_stats.filter (fun r => r.signature_id == signature_id)
  if rows = [] then db
  else
    let avg := (rows.map (fun r => (r.cycles : ℚ))).sum / rows.length
    if avg = 0 then db
    else { db with signatures := db.signatures.map (fun s =>
        if s.id = signature_id then { s with daily_cycles := roundTo 1 avg } else s) }

/-- `_update_daily_stats`: upsert into the (date, signature) row.  NOTE: the
source keys the row by `datetime.now()` (the wall-clock date `today`), not by
the event's timestamp. -/
def update_daily_stats (today : ℤ) (db : DB) (signature_id : ℕ) (power_delta : ℚ)
    (duration : ℤ) : DB :=
  let energy_kwh := roundTo 4 (power_delta * duration / 3600 / 1000)
  let stats :=
    if db.daily_stats.any (fun r => r.date == today && r.signature_id == signature_id) then
      db.daily_stats.map (fun r =>
        if r.date = today ∧ r.signature_id = signature_id then
          { r with cycles := r.cycles + 1, total_duration := r.total_duration + duration,
                   energy_kwh := r.energy_kwh + energy_kwh }
        else r)
    else
      db.daily_stats ++ [{ date := today, signature_id := signature_id, cycles := 1,
                           total_duration := duration, energy_kwh := energy_kwh }]
  update_daily_cycles { db with daily_stats := stats } signature_id

/-- `_get_signature_label`. -/
def get_signature_label (db : DB) (signature_id : ℕ) : String :=
  ((sigById db signature_id).map Signature.user_label).getD "Unknown"

/-- INSERT INTO load_events (AUTOINCREMENT id). -/
def insert_event (db : DB) (ts : ℤ) (event_type : EvType) (power_delta : ℚ) (leg : Leg)
    (duration : Option ℤ) (signature_id : ℕ) (confidence : ℚ) : DB :=
  { db with
    events := db.events ++
      [{ id := db.next_event_id, timestamp := ts, event_type := event_type,
         power_delta := power_delta, leg := leg, duration := duration,
         signature_id := signature_id, confidence := confidence }],
    next_event_id := db.next_event_id + 1 }

/-- The event dict returned by `detect_edge`. -/
structure EventOut where
  event_type : EvType
  power_delta : ℚ
  leg : Leg
  duration : Option ℤ
  signature_id : ℕ
  confidence : ℚ
  label : String
  timestamp : ℤ
deriving DecidableEq, Repr

/-- `detect_edge`.  `ts` is the event time (override_timestamp during replay,
wall clock live); `today` is the `datetime.now()` calendar date used by
`_update_daily_stats`. -/
def detect_edge (today : ℤ) (det : Detector) (db : DB) (smoothed_total : ℚ)
    (load_l1 load_l2 : Option ℚ) (ts : ℤ) : Detector × DB × Option EventOut :=
  match det.stable_level with
  | none => ({ det with stable_level := some smoothed_total }, db, none)
  | some stable =>
    let raw_current := det.recent_loads.head?.getD smoothed_total
    let delta := raw_current - stable
    if |delta| < EDGE_THRESHOLD then
      ({ det with stable_level := some (stable * (95/100) + smoothed_total * (5/100)) },
       db, none)
    else if ts - det.last_event_time < DEBOUNCE_SECONDS then
      (det, db, none)
    else
      let det1 := { det with last_event_time := ts, stable_level := some raw_current }
      let event_type := if 0 < delta then EvType.on else EvType.off
      let power_delta := roundTo 1 |delta|
      let l1n := load_l1.getD 0
      let l2n := load_l2.getD 0
      let leg := if |l1n - l2n| < 20 then Leg.both
                 else if l2n < l1n then Leg.l1 else Leg.l2
      let confidence := roundTo 2 (max (1/2) (min 1 (1/2 + power_delta / 400)))
      let (sid, db1) :=
        match find_matching_signature db power_delta with
        | some i => (i, update_signature db i power_delta)
        | none => create_signature db power_delta leg
      let (db2, duration) :=
        match event_type with
        | EvType.off => pair_on_off_event db1 sid ts power_delta
        | EvType.on => (db1, none)
      let db3 := insert_event db2 ts event_type power_delta leg duration sid confidence
      let db4 := update_signature_active_state db3 sid event_type ts power_delta
      let db5 :=
        match event_type, duration with
        | EvType.off, some d => if d = 0 then db4 else update_daily_stats today db4 sid power_delta d
        | _, _ => db4
      (det1, db5,
       some { event_type := event_type, power_delta := power_delta, leg := leg,
              duration := duration, signature_id := sid, confidence := confidence,
              label := get_signature_label db5 sid, timestamp := ts })

/-- `startup`: clear active state, mark unpaired on-events stale, count
signatures. -/
def startup (db : DB) : DB × ℕ :=
  let db1 := { db with
    signatures := db.signatures.map (fun s =>
      { s with is_active := false, active_count := 0 }),
    events := db.events.map (fun e =>
      if e.event_type = EvType.on ∧ e.duration = none then { e with duration := some (-1) }
      else e) }
  (db1, db1.signatures.length)

/-- One entry of the active-appliance list. -/
structure ActiveEntry where
  id : ℕ
  event_id : ℕ
  power : ℚ
  label : String
  icon : String
  color : String
  duration : ℤ
deriving DecidableEq, Repr

/-- The oldest-first pruning loop of `get_active_appliances`: while the list
is nonempty and the claimed total exceeds the threshold, pop the oldest entry
(returning the survivors and the popped event ids). -/
def pruneOldest (threshold : ℚ) : List ActiveEntry → ℚ → List ActiveEntry × List ℕ
  | [], _ => ([], [])
  | e :: rest, total =>
    if threshold < total then
      let (surv, pruned) := pruneOldest threshold rest (total - e.power)
      (surv, e.event_id :: pruned)
    else (e :: rest, [])

/-- The auto-expiry UPDATE of `get_active_appliances`: unpaired on-events
older than 4 hours get the stale sentinel. -/
def expireStale (now : ℤ) (events : List LoadEvent) : List LoadEvent :=
  events.map (fun e =>
    if e.event_type = EvType.on ∧ e.duration = none ∧ e.timestamp < now - 4 * 3600 then
      { e with duration := some (-1) }
    else e)

/-- The `active` list of `get_active_appliances`: recent unpaired on-events
(ordered by timestamp, joined with their signature) as display entries. -/
def activeEntries (now : ℤ) (db1 : DB) : List ActiveEntry :=
  ((sortByKey LoadEvent.timestamp
      (db1.events.filter (fun e => decide (e.event_type = EvType.on ∧ e.duration = none)))).filterMap
      (fun e => (sigById db1 e.signature_id).map (fun s => (e, s)))).map
      (fun p => { id := p.2.id, event_id := p.1.id, power := p.2.power_avg,
                  label := p.2.user_label, icon := p.2.icon, color := p.2.color,
                  duration := now - p.1.timestamp : ActiveEntry })

/-- `get_active_appliances(db_path, current_load)` at wall-clock time `now`. -/
def get_active_appliances (now : ℤ) (db : DB) (current_load : Option ℚ) :
    DB × List ActiveEntry :=
  let db1 := { db with events := expireStale now db.events }
  let active := activeEntries now db1
  match current_load with
  | none => (db1, active)
  | some cl =>
    if 0 < active.length then
      let appliance_load := max 0 (cl - INVERTER_IDLE_LOAD)
      let active_total := (active.map ActiveEntry.power).sum
      if appliance_load * (3/2) + 50 < active_total then
        let pr := pruneOldest (appliance_load * (3/2) + 50) active active_total
        ({ db1 with events := db1.events.map (fun e =>
            if pr.2.contains e.id then { e with duration := some (-1) } else e) },
         pr.1)
      else (db1, active)
    else (db1, active)

/-- Outcome of `merge_signatures`: False on a missing id; the stats UPDATE
raises sqlite3.IntegrityError (UNIQUE constraint on the
(date, signature_id) primary key) when the kept signature already has a
stats row for one of the merged signature's dates — the transaction is never
committed, so the database is left unchanged. -/
inductive MergeResult where
  | notFound (db : DB)
  | uniqueError (db : DB)
  | ok (db : DB)
deriving DecidableEq, Repr

/-- `merge_signatures`. -/
def merge_signatures (db : DB) (keep_id merge_id : ℕ) : MergeResult :=
  match sigById db keep_id, sigById db merge_id with
  | some k, some m =>
    let total := k.event_count + m.event_count
    let new_avg := if 0 < total then
        roundTo 1 ((k.power_avg * k.event_count + m.power_avg * m.event_count) / total)
      else k.power_avg
    if keep_id ≠ merge_id ∧ db.daily_stats.any (fun r =>
        r.signature_id == merge_id && db.daily_stats.any (fun r2 =>
          r2.signature_id == keep_id && r2.date == r.date)) then
      MergeResult.uniqueError db
    else
      MergeResult.ok { db with
        events := db.events.map (fun e =>
          if e.signature_id = merge_id then { e with signature_id := keep_id } else e),
        daily_stats := db.daily_stats.map (fun r =>
          if r.signature_id = merge_id then { r with signature_id := keep_id } else r),
        signatures := (db.signatures.map (fun s =>
          if s.id = keep_id then { s with power_avg := new_avg, event_count := total }
          else s)).filter (fun s => !(s.id == merge_id)) }
  | _, _ => MergeResult.notFound db

/-- One entry of the `_save_user_labels` snapshot dict (key = rounded
power_avg). -/
structure SavedLabel where
  key : ℤ
  label : String
  icon : String
  color : String
deriving DecidableEq, Repr

/-- Python-dict upsert: a reassigned key keeps its original position but
takes the new value; a new key is appended. -/
def upsertSaved (l : List SavedLabel) (e : SavedLabel) : List SavedLabel :=
  if l.any (fun x => x.key == e.key) then
    l.map (fun x => if x.key = e.key then { e with key := x.key } else x)
  else l ++ [e]

/-- `_save_user_labels`: snapshot every signature's (rounded power → label,
icon, color); a later signature with the same rounded power overwrites the
entry. -/
def save_user_labels (db : DB) : List SavedLabel :=
  db.signatures.foldl (fun acc s =>
    upsertSaved acc { key := pyRound s.power_avg, label := s.user_label,
                      icon := s.icon, color := s.color }) []

/-- Scan step of `_restore_user_labels`: `best_diff` only advances on entries
whose label is not an auto placeholder. -/
def restoreStep (key : ℤ) (best : Option (SavedLabel × ℤ)) (e : SavedLabel) :
    Option (SavedLabel × ℤ) :=
  let diff := |key - e.key|
  let tol := max ((key : ℚ) * SIGNATURE_TOLERANCE) EDGE_THRESHOLD
  let hit : Bool := match best with
    | none => decide ((diff : ℚ) ≤ tol)
    | some (_, bd) => decide ((diff : ℚ) ≤ tol ∧ diff < bd)
  if hit then (if e.label ∈ autoLabels then best else some (e, diff)) else best

/-- The customization `_restore_user_labels` picks for one rebuilt
signature, if any. -/
def restoreChoice (saved : List SavedLabel) (s : Signature) : Option SavedLabel :=
  (saved.foldl (restoreStep (pyRound s.power_avg)) none).map Prod.fst

/-- `_restore_user_labels`. -/
def restore_user_labels (db : DB) (saved : List SavedLabel) : DB :=
  { db with signatures := db.signatures.map (fun s =>
      match restoreChoice saved s with
      | some e => { s with user_label := e.label, icon := e.icon, color := e.color }
      | none => s) }

/-- Summary dict returned by `reanalyze`. -/
structure Summary where
  samples : ℕ
  events : ℕ
  signatures : ℕ
deriving DecidableEq, Repr

def initDetector : Detector :=
  { recent_loads := [], recent_l1 := [], recent_l2 := [], stable_level := none,
    last_event_time := 0 }

/-- The per-sample body of the reanalyze loop: build up the smoothing
buffers, smooth, and run edge detection with the sample's own timestamp. -/
def replayStep (today : ℤ) (st : Detector × DB × ℕ) (s : SampleRow) : Detector × DB × ℕ :=
  let det := { st.1 with
    recent_loads := pushWindow s.load_total st.1.recent_loads,
    recent_l1 := pushWindow s.load_l1 st.1.recent_l1,
    recent_l2 := pushWindow s.load_l2 st.1.recent_l2 }
  let smoothed := smooth det.recent_loads
  let r := detect_edge today det st.2.1 smoothed (some s.load_l1) (some s.load_l2) s.timestamp
  (r.1, r.2.1, st.2.2 + if r.2.2.isSome then 1 else 0)

/-- UPDATE appliance_signatures SET is_active = 0, active_count = 0. -/
def setAllInactive (db : DB) : DB :=
  { db with signatures := db.signatures.map (fun s =>
      { s with is_active := false, active_count := 0 }) }

/-- `reanalyze(db_path)` run with wall-clock calendar date `today`. -/
def reanalyze (today : ℤ) (det : Detector) (db : DB) : Detector × DB × Summary :=
  let saved := save_user_labels db
  let db1 := { db with events := [], signatures := [], daily_stats := [] }
  let samples := sortByKey SampleRow.timestamp db1.samples
  if samples = [] then (det, db1, { samples := 0, events := 0, signatures := 0 })
  else
    let st := samples.foldl (replayStep today) (initDetector, db1, 0)
    let db2 := setAllInactive st.2.1
    let sig_count := db2.signatures.length
    let db3 := restore_user_labels db2 saved
    (st.1, db3, { samples := samples.length, events := st.2.2, signatures := sig_count })

/-! ### Auxiliary definitions for the verification -/

/-- A rational that is a whole number of tenths (all power fields the engine
ever writes are `round(x, 1)` values). -/
def isTenth (q : ℚ) : Prop := (q * 10).den = 1

/-- The signature invariant stated by the specification:
`power_min ≤ power_avg ≤ power_max`, `active_count ≥ 0`,
`active_count > 0 ⇒ is_active`. -/
def SigInv (s : Signature) : Prop :=
  (s.power_min ≤ s.power_avg ∧ s.power_avg ≤ s.power_max) ∧
  0 ≤ s.active_count ∧ (0 < s.active_count → s.is_active = true)

/-- Auxiliary grid fact: the three power fields are tenths. -/
def SigGrid (s : Signature) : Prop :=
  isTenth s.power_avg ∧ isTenth s.power_min ∧ isTenth s.power_max

/-- The inductive database invariant: signature ids are unique and below the
AUTOINCREMENT counter, and every signature satisfies the specification
invariant together with the grid fact. -/
def DBInv (db : DB) : Prop :=
  ((db.signatures.map Signature.id).Nodup ∧ ∀ s ∈ db.signatures, s.id < db.next_sig_id) ∧
  ∀ s ∈ db.signatures, SigInv s ∧ SigGrid s

/-- Does a power delta qualify for a signature in `find_matching_signature`? -/
def Qual (power_delta : ℚ) (s : Signature) : Prop :=
  |power_delta - s.power_avg| ≤ s.power_avg * SIGNATURE_TOLERANCE

/-- Predicate on events selected by the pairing query (before the join). -/
def PairSel (off_ts : ℤ) (e : LoadEvent) : Prop :=
  e.event_type = EvType.on ∧ e.duration = none ∧
    off_ts - MAX_PAIRING_HOURS * 3600 ≤ e.timestamp

/-- Is a saved snapshot entry an acceptable restoration source for a rebuilt
signature with rounded power `key`: within tolerance and not an
auto-generated placeholder label? -/
def RestoreQual (key : ℤ) (x : SavedLabel) : Prop :=
  ((|key - x.key| : ℤ) : ℚ) ≤ max ((key : ℚ) * SIGNATURE_TOLERANCE) EDGE_THRESHOLD ∧
    x.label ∉ autoLabels

instance (q : ℚ) : Decidable (isTenth q) := by unfold isTenth; infer_instance

instance (s : Signature) : Decidable (SigInv s) := by unfold SigInv; infer_instance

instance (s : Signature) : Decidable (SigGrid s) := by unfold SigGrid; infer_instance

instance (db : DB) : Decidable (DBInv db) := by unfold DBInv; infer_instance

instance (pd : ℚ) (s : Signature) : Decidable (Qual pd s) := by unfold Qual; infer_instance

instance (off_ts : ℤ) (e : LoadEvent) : Decidable (PairSel off_ts e) := by
  unfold PairSel; infer_instance

instance (key : ℤ) (x : SavedLabel) : Decidable (RestoreQual key x) := by
  unfold RestoreQual; infer_instance

/-- Generic left-to-right strict-argmin scan over qualifying elements: the
common shape of `findStep`, `pairStep` and `restoreStep`. -/
def scanStep {α β γ : Type} [LinearOrder γ] (payload : α → β) (score : α → γ)
    (qual : α → Bool) (best : Option (β × γ)) (x : α) : Option (β × γ) :=
  match best with
  | none => if qual x then some (payload x, score x) else none
  | some (b, bd) => if qual x ∧ score x < bd then some (payload x, score x) else some (b, bd)

/-! Fixtures (concrete rows and databases used by witnesses and
counterexamples). -/

def emptyDB : DB :=
  { signatures := [], events := [], daily_stats := [], samples := [],
    next_sig_id := 1, next_event_id := 1 }

/-- A plain signature row fixture. -/
def baseSig (i : ℕ) (avg : ℚ) (cnt : ℕ) : Signature :=
  { id := i, power_avg := avg, power_min := avg, power_max := avg, leg_pattern := Leg.both,
    event_count := cnt, user_label := "Lamp", icon := "plug", color := "#60a5fa",
    is_active := false, active_count := 0, last_on_time := none, avg_duration := 0,
    daily_cycles := 0 }

/-- An unresolved on-event row fixture. -/
def baseOnEvent (i : ℕ) (ts : ℤ) (pd : ℚ) (sid : ℕ) : LoadEvent :=
  { id := i, timestamp := ts, event_type := EvType.on, power_delta := pd, leg := Leg.both,
    duration := none, signature_id := sid, confidence := 1/2 }

/-- The signature-resolution slice of `detect_edge`: find a matching
signature and update it, or create a new one. -/
def resolveDelta (db : DB) (power_delta : ℚ) (leg : Leg) : DB :=
  match find_matching_signature db power_delta with
  | some i => update_signature db i power_delta
  | none => (create_signature db power_delta leg).2

/-- Feeding the power deltas 148, 152, 151 W into an empty signature table. -/
def matcherScenario : DB :=
  resolveDelta (resolveDelta (resolveDelta emptyDB 148 Leg.both) 152 Leg.both) 151 Leg.both

/-- C4 fixture: one learned 150 W signature with an unresolved on-event at
epoch second 0 (calendar day 0). -/
def c4db : DB :=
  { emptyDB with
    signatures := [baseSig 1 150 1],
    events := [baseOnEvent 1 0 150 1],
    next_sig_id := 2, next_event_id := 2 }

/-- C4 fixture: detector tracking a 200 W baseline whose latest raw reading
dropped to 50 W. -/
def c4det : Detector :=
  { recent_loads := [50], recent_l1 := [], recent_l2 := [], stable_level := some 200,
    last_event_time := -100 }

/-- C5 counterexample fixture: two fresh unresolved on-events whose
signatures claim 20 W each (total 40 W ≤ the 50 W pruning floor). -/
def c5smallDB : DB :=
  { emptyDB with
    signatures := [baseSig 1 20 1, baseSig 2 20 1],
    events := [baseOnEvent 1 1000 20 1, baseOnEvent 2 2000 20 2] }

/-- C5 witness fixture: two fresh unresolved on-events whose signatures
claim 60 W each. -/
def c5bigDB : DB :=
  { emptyDB with
    signatures := [baseSig 1 60 1, baseSig 2 60 1],
    events := [baseOnEvent 1 1000 60 1, baseOnEvent 2 2000 60 2] }

/-- C6 counterexample fixture: signatures of 100 W and 500 W, one event
each, no daily stats. -/
def c6db : DB := { emptyDB with signatures := [baseSig 1 100 1, baseSig 2 500 1] }

/-- The database produced by merging signature 2 into signature 1 of
`c6db`. -/
def c6merged : DB :=
  { c6db with signatures :=
      [{ (baseSig 1 100 1) with power_avg := 300, event_count := 2 }] }

/-- C7 fixture: two signatures that both already have a daily-stats row for
the same date (day 0). -/
def c7db : DB :=
  { emptyDB with
    signatures := [baseSig 1 100 1, baseSig 2 110 1],
    daily_stats :=
      [{ date := 0, signature_id := 1, cycles := 1, total_duration := 10, energy_kwh := 1 },
       { date := 0, signature_id := 2, cycles := 2, total_duration := 20, energy_kwh := 2 }] }

/-- C8 counterexample fixture (pre-reanalysis state): a user-renamed 100.2 W
signature and a never-renamed 99.8 W signature — both round to key 100, so
the auto label overwrites the custom one and the snapshot loses "Fridge". -/
def c8customSig : Signature :=
  { (baseSig 1 (1002/10) 5) with user_label := "Fridge", icon := "custom", color := "#123456" }

def c8autoSig : Signature :=
  { (baseSig 2 (998/10) 3) with user_label := "Medium Device", icon := "snowflake", color := "#22c55e" }

def c8oldDB : DB := { emptyDB with signatures := [c8customSig, c8autoSig] }

/-- C8 counterexample fixture (rebuilt state): one fresh 100 W signature
carrying its auto-suggested label. -/
def c8newSig : Signature :=
  { (baseSig 1 100 4) with user_label := "Medium Device", icon := "snowflake", color := "#22c55e" }

def c8newDB : DB := { emptyDB with signatures := [c8newSig] }

/-- A constant-load sample used by the C1 convergence statement. -/
def constSample (r : ℚ) : SampleRow :=
  { timestamp := 0, load_total := r, load_l1 := 0, load_l2 := 0, smoothed_total := r }

/-- C1 witness fixture: window holding a single 100 W reading, baseline
95 W. -/
def c1det : Detector :=
  { recent_loads := [100], recent_l1 := [], recent_l2 := [], stable_level := some 95,
    last_event_time := 0 }

/-- C2 witness fixture: a single learned 148 W signature. -/
def c2db1 : DB := { emptyDB with signatures := [baseSig 1 148 1] }

/-- C8 witness fixture: a snapshot entry holding a custom label at rounded
power 100. -/
def c8savedFridge : SavedLabel :=
  { key := 100, label := "Fridge", icon := "custom", color := "#123456" }

/-! Id-shift machinery for the determinism claim: two reanalyze runs differ
only in the AUTOINCREMENT counters they start from, and every engine
operation is equivariant under uniformly shifting signature ids by `a` and
event ids by `b`. -/

def shiftSig (a : ℕ) (s : Signature) : Signature := { s with id := s.id + a }

def shiftEvent (a b : ℕ) (e : LoadEvent) : LoadEvent :=
  { e with id := e.id + b, signature_id := e.signature_id + a }

def shiftStat (a : ℕ) (r : DailyStat) : DailyStat :=
  { r with signature_id := r.signature_id + a }

def shiftCand (b : ℕ) (c : Cand) : Cand := { c with id := c.id + b }

def shiftOut (a : ℕ) (o : EventOut) : EventOut :=
  { o with signature_id := o.signature_id + a }

def shiftDB (a b : ℕ) (db : DB) : DB :=
  { signatures := db.signatures.map (shiftSig a),
    events := db.events.map (shiftEvent a b),
    daily_stats := db.daily_stats.map (shiftStat a),
    samples := db.samples,
    next_sig_id := db.next_sig_id + a,
    next_event_id := db.next_event_id + b }

/-! ### General helper lemmas -/

theorem foldl_congr_fun {α β : Type} {f g : β → α → β} (h : ∀ acc x, f acc x = g acc x) :
    ∀ (l : List α) (init : β), l.foldl f init = l.foldl g init := by
  intro l
  induction l with
  | nil => intro init; rfl
  | cons x xs ih => intro init; rw [List.foldl_cons, List.foldl_cons, h, ih]

section Scan

variable {α β γ : Type} [LinearOrder γ] {payload : α → β} {score : α → γ} {qual : α → Bool}

theorem scanStep_none (x : α) :
    scanStep payload score qual none x =
      if qual x then some (payload x, score x) else none := rfl

theorem scanStep_some (b : β) (bd : γ) (x : α) :
    scanStep payload score qual (some (b, bd)) x =
      if qual x ∧ score x < bd then some (payload x, score x) else some (b, bd) := rfl

theorem scan_none (l : List α) :
    ∀ acc, l.foldl (scanStep payload score qual) acc = none →
      acc = none ∧ ∀ x ∈ l, ¬ qual x = true := by
  induction l with
  | nil => intro acc h; exact ⟨h, by simp⟩
  | cons x xs ih =>
    intro acc h
    rw [List.foldl_cons] at h
    obtain ⟨hstep, hall⟩ := ih _ h
    cases acc with
    | none =>
      rw [scanStep_none] at hstep
      by_cases hq : qual x = true
      · rw [if_pos hq] at hstep; exact absurd hstep (by simp)
      · refine ⟨rfl, fun y hy => ?_⟩
        rcases List.mem_cons.mp hy with rfl | hy
        · exact hq
        · exact hall y hy
    | some p =>
      obtain ⟨b, bd⟩ := p
      rw [scanStep_some] at hstep
      by_cases hc : qual x = true ∧ score x < bd
      · rw [if_pos hc] at hstep; exact absurd hstep (by simp)
      · rw [if_neg hc] at hstep; exact absurd hstep (by simp)

theorem scan_provenance (l : List α) :
    ∀ acc b d, l.foldl (scanStep payload score qual) acc = some (b, d) →
      acc = some (b, d) ∨ ∃ x ∈ l, qual x = true ∧ b = payload x ∧ d = score x := by
  induction l with
  | nil => intro acc b d h; rw [List.foldl_nil] at h; exact Or.inl h
  | cons x xs ih =>
    intro acc b d h
    rw [List.foldl_cons] at h
    rcases ih _ _ _ h with hacc | ⟨y, hy, hq, hb, hd⟩
    · cases acc with
      | none =>
        rw [scanStep_none] at hacc
        by_cases hq : qual x = true
        · rw [if_pos hq] at hacc
          obtain ⟨h1, h2⟩ : payload x = b ∧ score x = d := by simpa using hacc
          exact Or.inr ⟨x, List.mem_cons_self .., hq, h1.symm, h2.symm⟩
        · rw [if_neg hq] at hacc; exact absurd hacc (by simp)
      | some p =>
        obtain ⟨p1, p2⟩ := p
        rw [scanStep_some] at hacc
        by_cases hc : qual x = true ∧ score x < p2
        · rw [if_pos hc] at hacc
          obtain ⟨h1, h2⟩ : payload x = b ∧ score x = d := by simpa using hacc
          exact Or.inr ⟨x, List.mem_cons_self .., hc.1, h1.symm, h2.symm⟩
        · rw [if_neg hc] at hacc; exact Or.inl hacc
    · exact Or.inr ⟨y, List.mem_cons_of_mem _ hy, hq, hb, hd⟩

theorem scan_min (l : List α) :
    ∀ acc b d, l.foldl (scanStep payload score qual) acc = some (b, d) →
      (∀ x ∈ l, qual x = true → d ≤ score x) ∧ (∀ p e, acc = some (p, e) → d ≤ e) := by
  induction l with
  | nil =>
    intro acc b d h
    rw [List.foldl_nil] at h
    refine ⟨by simp, fun p e he => ?_⟩
    rw [he] at h
    obtain ⟨h1, h2⟩ : p = b ∧ e = d := by simpa using h
    exact le_of_eq h2.symm
  | cons x xs ih =>
    intro acc b d h
    rw [List.foldl_cons] at h
    obtain ⟨hxs, hstep_le⟩ := ih _ _ _ h
    refine ⟨fun y hy hq => ?_, fun p e he => ?_⟩
    · rcases List.mem_cons.mp hy with rfl | hy
      · cases acc with
        | none =>
          exact hstep_le _ _ (by rw [scanStep_none, if_pos hq])
        | some p =>
          obtain ⟨p1, p2⟩ := p
          by_cases hlt : score y < p2
          · exact hstep_le _ _ (by rw [scanStep_some, if_pos ⟨hq, hlt⟩])
          · exact le_trans (hstep_le _ _ (by rw [scanStep_some, if_neg (by tauto)]))
              (not_lt.mp hlt)
      · exact hxs y hy hq
    · subst he
      by_cases hcond : qual x = true ∧ score x < e
      · exact le_trans (hstep_le _ _ (by rw [scanStep_some, if_pos hcond]))
          (le_of_lt hcond.2)
      · exact hstep_le _ _ (by rw [scanStep_some, if_neg hcond])

theorem scan_tie (ets : β → ℤ) (l : List α)
    (hsort : l.Pairwise (fun a b => ets (payload a) ≤ ets (payload b))) :
    ∀ acc, (∀ p e, acc = some (p, e) → ∀ x ∈ l, ets p ≤ ets (payload x)) →
    ∀ b d, l.foldl (scanStep payload score qual) acc = some (b, d) →
      (∀ x ∈ l, qual x = true → score x = d → ets b ≤ ets (payload x)) ∧
      (∀ p e, acc = some (p, e) → d ≤ e ∧ (d = e → ets b ≤ ets p)) := by
  induction l with
  | nil =>
    intro acc hts b d h
    rw [List.foldl_nil] at h
    refine ⟨by simp, fun p e he => ?_⟩
    rw [he] at h
    obtain ⟨h1, h2⟩ : p = b ∧ e = d := by simpa using h
    exact ⟨le_of_eq h2.symm, fun _ => le_of_eq (congrArg ets h1.symm)⟩
  | cons x xs ih =>
    intro acc hts b d h
    rw [List.foldl_cons] at h
    rw [List.pairwise_cons] at hsort
    obtain ⟨hx_le, hxs_sorted⟩ := hsort
    have hts' : ∀ p e, scanStep payload score qual acc x = some (p, e) →
        ∀ y ∈ xs, ets p ≤ ets (payload y) := by
      intro p e he y hy
      cases acc with
      | none =>
        rw [scanStep_none] at he
        by_cases hq : qual x = true
        · rw [if_pos hq] at he
          obtain ⟨h1, h2⟩ : payload x = p ∧ score x = e := by simpa using he
          exact h1 ▸ hx_le y hy
        · rw [if_neg hq] at he; exact absurd he (by simp)
      | some q =>
        obtain ⟨q1, q2⟩ := q
        rw [scanStep_some] at he
        by_cases hc : qual x = true ∧ score x < q2
        · rw [if_pos hc] at he
          obtain ⟨h1, h2⟩ : payload x = p ∧ score x = e := by simpa using he
          exact h1 ▸ hx_le y hy
        · rw [if_neg hc] at he
          obtain ⟨h1, h2⟩ : q1 = p ∧ q2 = e := by simpa using he
          exact h1 ▸ hts q1 q2 rfl y (List.mem_cons_of_mem _ hy)
    obtain ⟨ihA, ihB⟩ := ih hxs_sorted _ hts' _ _ h
    refine ⟨fun y hy hq hsc => ?_, fun p e he => ?_⟩
    · rcases List.mem_cons.mp hy with rfl | hy
      · cases acc with
        | none =>
          obtain ⟨hle, heq⟩ := ihB _ _ (by rw [scanStep_none, if_pos hq])
          exact heq hsc.symm
        | some q =>
          obtain ⟨q1, q2⟩ := q
          by_cases hlt : score y < q2
          · obtain ⟨hle, heq⟩ := ihB _ _ (by rw [scanStep_some, if_pos ⟨hq, hlt⟩])
            exact heq hsc.symm
          · obtain ⟨hle, heq⟩ := ihB _ _ (by rw [scanStep_some, if_neg (by tauto)])
            have hd_q2 : d = q2 := le_antisymm hle (hsc ▸ not_lt.mp hlt)
            exact le_trans (heq hd_q2) (hts q1 q2 rfl y (List.mem_cons_self ..))
      · exact ihA y hy hq hsc
    · subst he
      by_cases hcond : qual x = true ∧ score x < e
      · obtain ⟨hle, heq⟩ := ihB _ _ (by rw [scanStep_some, if_pos hcond])
        exact ⟨le_trans hle (le_of_lt hcond.2),
               fun hde => absurd (hde ▸ lt_of_le_of_lt hle hcond.2) (lt_irrefl _)⟩
      · obtain ⟨hle, heq⟩ := ihB _ _ (by rw [scanStep_some, if_neg hcond])
        exact ⟨hle, heq⟩

end Scan

/-! Sorting helper lemmas. -/

theorem mem_insertByKey {α : Type} (key : α → ℤ) (e a : α) :
    ∀ l, (a ∈ insertByKey key e l ↔ a = e ∨ a ∈ l) := by
  intro l
  induction l with
  | nil => simp [insertByKey]
  | cons x xs ih =>
    unfold insertByKey
    by_cases h : key x < key e
    · rw [if_pos h]
      simp only [List.mem_cons, ih]
      tauto
    · rw [if_neg h]
      simp only [List.mem_cons]

theorem mem_sortByKey {α : Type} (key : α → ℤ) (a : α) :
    ∀ l, (a ∈ sortByKey key l ↔ a ∈ l) := by
  intro l
  induction l with
  | nil => simp [sortByKey]
  | cons x xs ih =>
    unfold sortByKey at ih ⊢
    rw [List.foldr_cons, mem_insertByKey, ih, List.mem_cons]

theorem sorted_insertByKey {α : Type} (key : α → ℤ) (e : α) :
    ∀ l, l.Pairwise (fun a b => key a ≤ key b) →
      (insertByKey key e l).Pairwise (fun a b => key a ≤ key b) := by
  intro l
  induction l with
  | nil => intro _; simp [insertByKey]
  | cons x xs ih =>
    intro hl
    rw [List.pairwise_cons] at hl
    obtain ⟨hx, hxs⟩ := hl
    unfold insertByKey
    by_cases h : key x < key e
    · rw [if_pos h]
      rw [List.pairwise_cons]
      refine ⟨fun y hy => ?_, ih hxs⟩
      rcases (mem_insertByKey key e y xs).mp hy with rfl | hy
      · exact le_of_lt h
      · exact hx y hy
    · rw [if_neg h]
      rw [List.pairwise_cons]
      refine ⟨fun y hy => ?_, List.pairwise_cons.mpr ⟨hx, hxs⟩⟩
      rcases List.mem_cons.mp hy with rfl | hy
      · exact not_lt.mp h
      · exact le_trans (not_lt.mp h) (hx y hy)

theorem sorted_sortByKey {α : Type} (key : α → ℤ) :
    ∀ l : List α, (sortByKey key l).Pairwise (fun a b => key a ≤ key b) := by
  intro l
  induction l with
  | nil => simp [sortByKey]
  | cons x xs ih =>
    unfold sortByKey at ih ⊢
    rw [List.foldr_cons]
    exact sorted_insertByKey key x _ ih

theorem insertByKey_map {α α' : Type} (key : α → ℤ) (key' : α' → ℤ) (g : α' → α)
    (hkey : ∀ x, key (g x) = key' x) (e : α') :
    ∀ l : List α', insertByKey key (g e) (l.map g) = (insertByKey key' e l).map g := by
  intro l
  induction l with
  | nil => simp [insertByKey]
  | cons x xs ih =>
    simp only [List.map_cons]
    unfold insertByKey
    rw [hkey, hkey]
    by_cases h : key' x < key' e
    · rw [if_pos h, if_pos h, List.map_cons, ih]
    · rw [if_neg h, if_neg h, List.map_cons, List.map_cons]

theorem sortByKey_map {α α' : Type} (key : α → ℤ) (key' : α' → ℤ) (g : α' → α)
    (hkey : ∀ x, key (g x) = key' x) :
    ∀ l : List α', sortByKey key (l.map g) = (sortByKey key' l).map g := by
  intro l
  induction l with
  | nil => simp [sortByKey]
  | cons x xs ih =>
    unfold sortByKey at ih ⊢
    rw [List.map_cons, List.foldr_cons, List.foldr_cons, ih,
      insertByKey_map key key' g hkey]

theorem pairwise_filterMap_of {α β : Type} {R : β → β → Prop} {S : α → α → Prop}
    (f : α → Option β) (h : ∀ a b x y, S a b → f a = some x → f b = some y → R x y) :
    ∀ l : List α, l.Pairwise S → (l.filterMap f).Pairwise R := by
  intro l hl
  induction hl with
  | nil => simp
  | @cons a l ha hl ih =>
    rw [List.filterMap_cons]
    cases hfa : f a with
    | none => exact ih
    | some b =>
      rw [List.pairwise_cons]
      refine ⟨fun y hy => ?_, ih⟩
      obtain ⟨a', ha', hfa'⟩ := List.mem_filterMap.mp hy
      exact h a a' b y (ha a' ha') hfa hfa'

/-! Rounding helper lemmas. -/

theorem pyRound_cases (q : ℚ) : pyRound q = ⌊q⌋ ∨ (pyRound q = ⌊q⌋ + 1 ∧ (⌊q⌋ : ℚ) < q) := by
  unfold pyRound
  by_cases h1 : 2 * q < 2 * (⌊q⌋ : ℚ) + 1
  · rw [if_pos h1]; exact Or.inl rfl
  · rw [if_neg h1]
    by_cases h2 : 2 * (⌊q⌋ : ℚ) + 1 < 2 * q
    · rw [if_pos h2]
      exact Or.inr ⟨rfl, by linarith⟩
    · rw [if_neg h2]
      by_cases h3 : 2 ∣ ⌊q⌋
      · rw [if_pos h3]; exact Or.inl rfl
      · rw [if_neg h3]
        have : 2 * q = 2 * (⌊q⌋ : ℚ) + 1 := le_antisymm (not_lt.mp h2) (not_lt.mp h1)
        exact Or.inr ⟨rfl, by linarith⟩

theorem le_pyRound (a : ℤ) (q : ℚ) (h : (a : ℚ) ≤ q) : a ≤ pyRound q := by
  have hfl : a ≤ ⌊q⌋ := Int.le_floor.mpr h
  rcases pyRound_cases q with hc | ⟨hc, _⟩ <;> omega

theorem pyRound_le (b : ℤ) (q : ℚ) (h : q ≤ (b : ℚ)) : pyRound q ≤ b := by
  have hfl : ⌊q⌋ ≤ b := by
    have := Int.floor_le_floor h
    simpa using this
  rcases pyRound_cases q with hc | ⟨hc, hlt⟩
  · omega
  · have : ⌊q⌋ < b := by
      rcases lt_or_eq_of_le hfl with h' | h'
      · exact h'
      · exfalso
        rw [h'] at hlt
        exact absurd (lt_of_lt_of_le hlt h) (lt_irrefl _)
    omega

theorem isTenth_div_ten (k : ℤ) : isTenth ((k : ℚ) / 10) := by
  unfold isTenth
  have : ((k : ℚ) / 10) * 10 = (k : ℚ) := by field_simp
  rw [this]
  exact Rat.den_intCast k

theorem isTenth_num (q : ℚ) (h : isTenth q) : q = ((q * 10).num : ℚ) / 10 := by
  unfold isTenth at h
  have h10 : ((q * 10).num : ℚ) = q * 10 := by
    conv_rhs => rw [← Rat.num_div_den (q * 10)]
    rw [h]
    simp
  field_simp
  linarith [h10]

theorem isTenth_roundTo1 (q : ℚ) : isTenth (roundTo 1 q) := by
  unfold roundTo
  norm_num
  exact isTenth_div_ten (pyRound (q * 10))

theorem roundTo1_bounds (m M q : ℚ) (hm : isTenth m) (hM : isTenth M)
    (h1 : m ≤ q) (h2 : q ≤ M) : m ≤ roundTo 1 q ∧ roundTo 1 q ≤ M := by
  obtain hmk := isTenth_num m hm
  obtain hMk := isTenth_num M hM
  set km := (m * 10).num with hkm
  set kM := (M * 10).num with hkM
  have hq1 : (km : ℚ) ≤ q * 10 := by rw [hmk] at h1; linarith
  have hq2 : q * 10 ≤ (kM : ℚ) := by rw [hMk] at h2; linarith
  have hlo : km ≤ pyRound (q * 10) := le_pyRound _ _ hq1
  have hhi : pyRound (q * 10) ≤ kM := pyRound_le _ _ hq2
  unfold roundTo
  norm_num
  constructor
  · rw [hmk]
    have : (km : ℚ) ≤ (pyRound (q * 10) : ℚ) := Int.cast_le.mpr hlo
    linarith
  · rw [hMk]
    have : (pyRound (q * 10) : ℚ) ≤ (kM : ℚ) := Int.cast_le.mpr hhi
    linarith

theorem isTenth_min (a b : ℚ) (ha : isTenth a) (hb : isTenth b) : isTenth (min a b) := by
  rcases min_choice a b with h | h <;> rw [h] <;> assumption

theorem isTenth_max (a b : ℚ) (ha : isTenth a) (hb : isTenth b) : isTenth (max a b) := by
  rcases max_choice a b with h | h <;> rw [h] <;> assumption

/-! Smoothing helper lemmas. -/

theorem sum_const_list (r : ℚ) : ∀ l : List ℚ, (∀ x ∈ l, x = r) → l.sum = (l.length : ℚ) * r := by
  intro l
  induction l with
  | nil => simp
  | cons x xs ih =>
    intro h
    rw [List.sum_cons, h x (List.mem_cons_self ..),
      ih (fun y hy => h y (List.mem_cons_of_mem _ hy))]
    simp only [List.length_cons]
    push_cast
    ring

theorem smooth_const (l : List ℚ) (r : ℚ) (h : ∀ x ∈ l, x = r) (hne : l ≠ []) :
    smooth l = r := by
  unfold smooth
  rw [if_neg hne]
  rw [sum_const_list r l h]
  have hlen : (l.length : ℚ) ≠ 0 := by
    simpa using List.length_pos.mpr hne |>.ne'
  field_simp

theorem pushWindow_const (r : ℚ) (w : List ℚ) (h : ∀ x ∈ w, x = r) :
    ∀ x ∈ pushWindow r w, x = r := by
  intro x hx
  unfold pushWindow at hx
  have := List.mem_of_mem_take hx
  rcases List.mem_cons.mp this with rfl | hmem
  · rfl
  · exact h x hmem

/-! ### Claim theorems: closed computational statements -/

set_option maxRecDepth 8000

/-- C4: the daily-stats upsert performed by `detect_edge` for a resolved
"off" event is keyed by the wall-clock date (`datetime.now()` in
`_update_daily_stats`), not by the calendar date of the off event.  Concrete
evaluation: an off edge with (replayed) timestamp 3600 — calendar day 0 —
processed while the wall clock reads day 5 books its cycle, duration 3600 s
and energy 0.15 kWh into the row for day 5, although the claim requires
day 0. -/
theorem C4_daily_stats_keyed_by_run_date :
    dayOf 3600 = 0 ∧
    (detect_edge 5 c4det c4db 60 none none 3600).2.1.daily_stats =
      [{ date := 5, signature_id := 1, cycles := 1, total_duration := 3600,
         energy_kwh := 3/20 }] ∧
    (5 : ℤ) ≠ dayOf 3600 := by
  refine ⟨by decide, ?_, by decide⟩
  norm_num [detect_edge, c4det, c4db, emptyDB, baseSig, baseOnEvent,
    find_matching_signature, findStep, update_signature, create_signature,
    pair_on_off_event, pairCandidates, sortByKey, insertByKey, sigById,
    pairScore, pairStep, update_avg_duration, insert_event,
    update_signature_active_state, update_daily_stats, update_daily_cycles,
    get_signature_label, roundTo, pyRound, EDGE_THRESHOLD, DEBOUNCE_SECONDS,
    SIGNATURE_TOLERANCE, MAX_PAIRING_HOURS,
    List.foldl_cons, List.foldl_nil, List.filterMap_cons, List.filterMap_nil,
    List.find?_cons, List.find?_nil, List.filter_cons, List.filter_nil,
    List.foldr_cons, List.foldr_nil, List.any_cons, List.any_nil]

/-- C7: merging two existing signatures raises a UNIQUE-constraint error
(sqlite3.IntegrityError on the (date, signature_id) primary key of
appliance_daily_stats) instead of succeeding, whenever both signatures
already have a daily-stats row for the same date; nothing is committed, so
the database is unchanged and signature B is *not* deleted. -/
theorem C7_merge_integrity_error :
    (sigById c7db 1).isSome = true ∧ (sigById c7db 2).isSome = true ∧
    merge_signatures c7db 1 2 = MergeResult.uniqueError c7db := by
  refine ⟨by simp [sigById, c7db, emptyDB, baseSig],
          by simp [sigById, c7db, emptyDB, baseSig], ?_⟩
  simp [merge_signatures, c7db, emptyDB, baseSig, sigById]

/-- C10: with an empty load_samples table, `reanalyze` returns the
zero-count summary, but only after the derived tables (events, signatures,
daily stats) have already been deleted; the snapshot of custom labels is
never restored (the returned database has no signatures and is otherwise
untouched) and the in-memory detector state is returned unreset. -/
theorem C10_reanalyze_no_data (today : ℤ) (det : Detector) (db : DB)
    (h : db.samples = []) :
    reanalyze today det db =
      (det, { db with events := [], signatures := [], daily_stats := [] },
       { samples := 0, events := 0, signatures := 0 }) := by
  simp [reanalyze, h, sortByKey]

theorem C10_witness :
    emptyDB.samples = [] ∧
    reanalyze 0 initDetector emptyDB =
      (initDetector, { emptyDB with events := [], signatures := [], daily_stats := [] },
       { samples := 0, events := 0, signatures := 0 }) :=
  ⟨rfl, C10_reanalyze_no_data 0 initDetector emptyDB rfl⟩

/-- C2 counterexample: feeding the deltas 148, 152, 151 W into an empty
signature table does resolve all three to one signature, but its final
`power_avg` is 150.3 (the running average is rounded to one decimal at each
update), which differs from the exact mean 451/3 = 150.333…, so the claim's
"final power_avg equals the mean of the three" is false on the code. -/
theorem C2_counterexample :
    matcherScenario.signatures.map
        (fun s => (s.power_avg, s.power_min, s.power_max, s.event_count)) =
      [(1503/10, 148, 152, 3)] ∧
    ¬ ((1503 : ℚ)/10 = (148 + 152 + 151)/3) := by
  constructor
  · norm_num [matcherScenario, resolveDelta, find_matching_signature, findStep,
      update_signature, create_signature, emptyDB, suggest_label, suggest_icon,
      suggest_color, roundTo, pyRound, SIGNATURE_TOLERANCE]
  · norm_num

/-- C5 counterexample: with two fresh (2000 s and 1000 s old) unresolved
"on" events whose signatures claim 20 W each, calling
`get_active_appliances` with the live load equal to the idle baseline (70 W)
returns BOTH entries and changes nothing — the pruning loop only fires while
the claimed total exceeds 50 W, so emptying "regardless of the two
signatures' claimed power values" is false on the code. -/
theorem C5_counterexample :
    ((3000 : ℤ) - 4 * 3600 < 1000) ∧
    (get_active_appliances 3000 c5smallDB (some INVERTER_IDLE_LOAD)).2.length = 2 ∧
    (get_active_appliances 3000 c5smallDB (some INVERTER_IDLE_LOAD)).1 = c5smallDB := by
  have h2 : activeEntries 3000 c5smallDB =
      [{ id := 1, event_id := 1, power := 20, label := "Lamp", icon := "plug",
         color := "#60a5fa", duration := 2000 },
       { id := 2, event_id := 2, power := 20, label := "Lamp", icon := "plug",
         color := "#60a5fa", duration := 1000 }] := by
    simp [activeEntries, c5smallDB, emptyDB, baseSig, baseOnEvent, sortByKey,
      insertByKey, sigById]
  have h1 : expireStale 3000 c5smallDB.events = c5smallDB.events := by
    simp [expireStale, c5smallDB, emptyDB, baseOnEvent]
  have hdb : { c5smallDB with events := expireStale 3000 c5smallDB.events } = c5smallDB := by
    rw [h1]
  refine ⟨by decide, ?_, ?_⟩ <;>
  · simp only [get_active_appliances, hdb, h2]
    norm_num [pruneOldest, INVERTER_IDLE_LOAD]

/-- C6 counterexample: merging signature 2 (500 W avg, 1 event) into
signature 1 (100 W avg = min = max, 1 event) succeeds and leaves the kept
signature with power_avg = 300 but power_min = power_max = 100, violating
power_avg ≤ power_max although the invariant held for both inputs. -/
theorem C6_counterexample :
    c6db.signatures = [baseSig 1 100 1, baseSig 2 500 1] ∧
    SigInv (baseSig 1 100 1) ∧ SigInv (baseSig 2 500 1) ∧
    merge_signatures c6db 1 2 = MergeResult.ok c6merged ∧
    c6merged.signatures.map (fun s => (s.power_avg, s.power_min, s.power_max)) =
      [(300, 100, 100)] ∧
    ¬ ((300 : ℚ) ≤ 100) := by
  refine ⟨rfl, by simp [SigInv, baseSig], by simp [SigInv, baseSig], ?_, ?_, by norm_num⟩
  · simp [merge_signatures, c6db, c6merged, emptyDB, baseSig, sigById, roundTo, pyRound]
    norm_num
  · simp [c6merged, c6db, emptyDB, baseSig]

/-- C8 counterexample: `_save_user_labels` snapshots every label keyed by
rounded power, so the never-edited auto label of the 99.8 W signature
overwrites the snapshot entry of the user-edited 100.2 W signature (both
round to key 100).  After reanalysis rebuilds a 100 W signature — within
tolerance of the snapshotted 100.2 W power — the custom label "Fridge" is
NOT restored, contradicting the claim. -/
theorem C8_counterexample :
    save_user_labels c8oldDB =
      [{ key := 100, label := "Medium Device", icon := "snowflake", color := "#22c55e" }] ∧
    c8customSig.user_label = "Fridge" ∧ "Fridge" ∉ autoLabels ∧
    pyRound c8customSig.power_avg = 100 ∧
    pyRound c8newSig.power_avg = 100 ∧
    ((|(100 : ℤ) - 100| : ℤ) : ℚ) ≤ max ((100 : ℚ) * SIGNATURE_TOLERANCE) EDGE_THRESHOLD ∧
    (restore_user_labels c8newDB (save_user_labels c8oldDB)).signatures.map
        Signature.user_label = ["Medium Device"] := by
  have hp1 : pyRound (1002/10 : ℚ) = 100 := by norm_num [pyRound]
  have hp2 : pyRound (998/10 : ℚ) = 100 := by norm_num [pyRound]
  have hp3 : pyRound (100 : ℚ) = 100 := by norm_num [pyRound]
  have hsave : save_user_labels c8oldDB =
      [{ key := 100, label := "Medium Device", icon := "snowflake", color := "#22c55e" }] := by
    simp [save_user_labels, c8oldDB, c8customSig, c8autoSig, emptyDB, baseSig,
      upsertSaved, hp1, hp2]
  refine ⟨hsave, rfl, by simp [autoLabels], by simpa [c8customSig, baseSig] using hp1,
    by simpa [c8newSig, baseSig] using hp3,
    by norm_num [SIGNATURE_TOLERANCE, EDGE_THRESHOLD], ?_⟩
  rw [hsave]
  simp [restore_user_labels, restoreChoice, restoreStep, c8newDB, c8newSig,
    emptyDB, baseSig, hp3, autoLabels]

/-! ### C1: stable branch and baseline drift -/

theorem detect_edge_stable_branch (today : ℤ) (det : Detector) (db : DB) (b sm : ℚ)
    (l1 l2 : Option ℚ) (ts : ℤ) (hb : det.stable_level = some b)
    (hd : |det.recent_loads.head?.getD sm - b| < EDGE_THRESHOLD) :
    detect_edge today det db sm l1 l2 ts =
      ({ det with stable_level := some (b * (95/100) + sm * (5/100)) }, db, none) := by
  simp only [detect_edge, hb]
  rw [if_pos hd]

theorem pushWindow_ne_nil (x : ℚ) (w : List ℚ) : pushWindow x w ≠ [] := by
  unfold pushWindow SMOOTHING_WINDOW
  simp

theorem pushWindow_head (x : ℚ) (w : List ℚ) (d : ℚ) :
    (pushWindow x w).head?.getD d = x := by
  unfold pushWindow SMOOTHING_WINDOW
  simp

/-- C1: while the raw delta against the baseline stays strictly below the
edge threshold, `detect_edge` emits no event and drifts the baseline to
exactly `baseline*0.95 + smoothed*0.05`; consequently, replaying any number
of samples of a sustained constant reading `r` (with the rolling window
already holding only `r`) emits no event, leaves the database untouched and
contracts the baseline's distance to `r` by a factor 0.95 per sample, so the
baseline converges toward the sustained reading. -/
theorem C1_stable_no_event_and_convergence :
    (∀ (today : ℤ) (det : Detector) (db : DB) (b sm : ℚ) (l1 l2 : Option ℚ) (ts : ℤ),
      det.stable_level = some b →
      |det.recent_loads.head?.getD sm - b| < EDGE_THRESHOLD →
      detect_edge today det db sm l1 l2 ts =
        ({ det with stable_level := some (b * (95/100) + sm * (5/100)) }, db, none)) ∧
    (∀ (today : ℤ) (det : Detector) (db : DB) (b r : ℚ) (n : ℕ),
      det.stable_level = some b → (∀ x ∈ det.recent_loads, x = r) →
      |b - r| < EDGE_THRESHOLD →
      ((List.replicate n (constSample r)).foldl (replayStep today) (det, db, 0)).2.1 = db ∧
      ((List.replicate n (constSample r)).foldl (replayStep today) (det, db, 0)).2.2 = 0 ∧
      ((List.replicate n (constSample r)).foldl (replayStep today) (det, db, 0)).1.stable_level =
        some (r + (19/20) ^ n * (b - r))) := by
  refine ⟨fun today det db b sm l1 l2 ts hb hd =>
    detect_edge_stable_branch today det db b sm l1 l2 ts hb hd, ?_⟩
  intro today det db b r n
  revert det b
  induction n with
  | zero =>
    intro det b hb hall hlt
    refine ⟨rfl, rfl, ?_⟩
    rw [List.replicate_zero, List.foldl_nil, hb]
    congr 1
    ring
  | succ n ih =>
    intro det b hb hall hlt
    rw [List.replicate_succ, List.foldl_cons]
    have hpush : ∀ x ∈ pushWindow r det.recent_loads, x = r :=
      pushWindow_const r det.recent_loads hall
    have hsm : smooth (pushWindow r det.recent_loads) = r :=
      smooth_const _ r hpush (pushWindow_ne_nil r _)
    have hstep : replayStep today (det, db, 0) (constSample r) =
        ({ det with recent_loads := pushWindow r det.recent_loads,
                    recent_l1 := pushWindow 0 det.recent_l1,
                    recent_l2 := pushWindow 0 det.recent_l2,
                    stable_level := some (b * (95/100) + r * (5/100)) }, db, 0) := by
      unfold replayStep constSample
      simp only []
      rw [hsm]
      rw [detect_edge_stable_branch today
          { det with recent_loads := pushWindow r det.recent_loads,
                     recent_l1 := pushWindow 0 det.recent_l1,
                     recent_l2 := pushWindow 0 det.recent_l2 }
          db b r (some 0) (some 0) 0 hb
          (by simp only [pushWindow_head]; rw [abs_sub_comm]; exact hlt)]
      simp
    rw [hstep]
    have hlt' : |b * (95/100) + r * (5/100) - r| < EDGE_THRESHOLD := by
      have heq : b * (95/100) + r * (5/100) - r = (19/20) * (b - r) := by ring
      rw [heq, abs_mul]
      have h1 : |(19/20 : ℚ)| = 19/20 := by norm_num
      rw [h1]
      calc (19/20 : ℚ) * |b - r| ≤ 1 * |b - r| := by
            apply mul_le_mul_of_nonneg_right (by norm_num) (abs_nonneg _)
        _ = |b - r| := one_mul _
        _ < EDGE_THRESHOLD := hlt
    obtain ⟨g1, g2, g3⟩ := ih
      { det with recent_loads := pushWindow r det.recent_loads,
                 recent_l1 := pushWindow 0 det.recent_l1,
                 recent_l2 := pushWindow 0 det.recent_l2,
                 stable_level := some (b * (95/100) + r * (5/100)) }
      (b * (95/100) + r * (5/100)) rfl hpush hlt'
    refine ⟨g1, g2, ?_⟩
    rw [g3]
    congr 1
    rw [pow_succ]
    ring

theorem C1_witness :
    detect_edge 0 c1det emptyDB 103 none none 50 =
      ({ c1det with stable_level := some (95 * (95/100) + 103 * (5/100)) }, emptyDB, none) ∧
    ((List.replicate 2 (constSample 100)).foldl (replayStep 0) (c1det, emptyDB, 0)).2.2 = 0 ∧
    ((List.replicate 2 (constSample 100)).foldl (replayStep 0) (c1det, emptyDB, 0)).1.stable_level =
      some (100 + (19/20) ^ 2 * (95 - 100)) := by
  refine ⟨C1_stable_no_event_and_convergence.1 0 c1det emptyDB 95 103 none none 50 rfl
      (by norm_num [c1det, EDGE_THRESHOLD]), ?_, ?_⟩
  · exact (C1_stable_no_event_and_convergence.2 0 c1det emptyDB 95 100 2 rfl
      (by simp [c1det]) (by norm_num [EDGE_THRESHOLD])).2.1
  · exact (C1_stable_no_event_and_convergence.2 0 c1det emptyDB 95 100 2 rfl
      (by simp [c1det]) (by norm_num [EDGE_THRESHOLD])).2.2

/-! ### C2: matcher specification -/

theorem findStep_eq_scan (pd : ℚ) : ∀ (best : Option (ℕ × ℚ)) (s : Signature),
    findStep pd best s =
      scanStep (fun s : Signature => s.id) (fun s => |pd - s.power_avg|)
        (fun s => decide (Qual pd s)) best s := by
  intro best s
  cases best with
  | none =>
    simp only [findStep, scanStep, Qual, decide_eq_true_eq]
  | some p =>
    obtain ⟨b, bd⟩ := p
    simp only [findStep, scanStep, Qual, decide_eq_true_eq]

theorem find_matching_fold (db : DB) (pd : ℚ) :
    db.signatures.foldl (findStep pd) none =
      db.signatures.foldl
        (scanStep (fun s : Signature => s.id) (fun s => |pd - s.power_avg|)
          (fun s => decide (Qual pd s))) none :=
  foldl_congr_fun (findStep_eq_scan pd) _ _

/-- C2 (amended): `find_matching_signature` returns the signature minimizing
|power_delta − power_avg| among those within power_avg × tolerance, or none
if no signature qualifies; on a match `update_signature` sets the new
average to (old_avg*count + power_delta)/(count+1) *rounded to one decimal*,
extends min/max and increments the count; the 148/152/151 W scenario
resolves all three deltas to one signature whose final power_avg is 150.3 —
the mean of the three rounded to one decimal — with min 148, max 152,
count 3. -/
theorem C2_matcher_amended :
    (∀ (db : DB) (pd : ℚ),
      (find_matching_signature db pd = none → ∀ s ∈ db.signatures, ¬ Qual pd s) ∧
      (∀ i, find_matching_signature db pd = some i →
        ∃ s ∈ db.signatures, s.id = i ∧ Qual pd s ∧
          ∀ s' ∈ db.signatures, Qual pd s' → |pd - s.power_avg| ≤ |pd - s'.power_avg|)) ∧
    (∀ (db : DB) (sid : ℕ) (pd : ℚ) (s : Signature), s ∈ db.signatures → s.id = sid →
      { s with
        power_avg := roundTo 1 ((s.power_avg * s.event_count + pd) / (s.event_count + 1)),
        power_min := min s.power_min pd,
        power_max := max s.power_max pd,
        event_count := s.event_count + 1 } ∈ (update_signature db sid pd).signatures) ∧
    (matcherScenario.signatures.map
        (fun s => (s.power_avg, s.power_min, s.power_max, s.event_count)) =
      [(1503/10, 148, 152, 3)] ∧
     (1503 : ℚ)/10 = roundTo 1 ((148 + 152 + 151)/3)) := by
  refine ⟨fun db pd => ⟨?_, ?_⟩, ?_, ?_, ?_⟩
  · intro hnone s hs hq
    unfold find_matching_signature at hnone
    rw [find_matching_fold] at hnone
    rcases hfold : db.signatures.foldl
        (scanStep (fun s : Signature => s.id) (fun s => |pd - s.power_avg|)
          (fun s => decide (Qual pd s))) none with _ | p
    · obtain ⟨-, hall⟩ := scan_none _ _ hfold
      exact hall s hs (by simpa using hq)
    · rw [hfold] at hnone
      exact absurd hnone (by simp)
  · intro i hi
    unfold find_matching_signature at hi
    rw [find_matching_fold] at hi
    rcases hfold : db.signatures.foldl
        (scanStep (fun s : Signature => s.id) (fun s => |pd - s.power_avg|)
          (fun s => decide (Qual pd s))) none with _ | p
    · rw [hfold] at hi; exact absurd hi (by simp)
    · obtain ⟨b, d⟩ := p
      rw [hfold] at hi
      have hib : b = i := by simpa using hi
      subst hib
      rcases scan_provenance _ _ _ _ hfold with hacc | ⟨s, hs, hq, hb, hd⟩
      · exact absurd hacc (by simp)
      · obtain ⟨hmin, -⟩ := scan_min _ _ _ _ hfold
        refine ⟨s, hs, hb.symm, by simpa using hq, fun s' hs' hq' => ?_⟩
        have := hmin s' hs' (by simpa using hq')
        rw [hd] at this
        exact this
  · intro db sid pd s hs hid
    unfold update_signature
    simp only [List.mem_map]
    exact ⟨s, hs, by rw [if_pos hid]⟩
  · norm_num [matcherScenario, resolveDelta, find_matching_signature, findStep,
      update_signature, create_signature, emptyDB, suggest_label, suggest_icon,
      suggest_color, roundTo, pyRound, SIGNATURE_TOLERANCE]
  · norm_num [roundTo, pyRound]

theorem C2_witness :
    find_matching_signature c2db1 152 = some 1 ∧
    (∃ s ∈ c2db1.signatures, s.id = 1 ∧ Qual 152 s ∧
      ∀ s' ∈ c2db1.signatures, Qual 152 s' → |152 - s.power_avg| ≤ |152 - s'.power_avg|) ∧
    { baseSig 1 148 1 with
      power_avg := roundTo 1 (((baseSig 1 148 1).power_avg * (baseSig 1 148 1).event_count + 152) /
        ((baseSig 1 148 1).event_count + 1)),
      power_min := min (baseSig 1 148 1).power_min 152,
      power_max := max (baseSig 1 148 1).power_max 152,
      event_count := (baseSig 1 148 1).event_count + 1 } ∈
        (update_signature c2db1 1 152).signatures := by
  have hfind : find_matching_signature c2db1 152 = some 1 := by
    norm_num [find_matching_signature, findStep, c2db1, emptyDB, baseSig,
      SIGNATURE_TOLERANCE]
  exact ⟨hfind, (C2_matcher_amended.1 c2db1 152).2 1 hfind,
    C2_matcher_amended.2.1 c2db1 1 152 (baseSig 1 148 1) (by simp [c2db1]) rfl⟩

/-! ### C3: event pairing -/

theorem pairStep_eq_scan (op : ℚ) : ∀ (best : Option ((ℕ × ℤ) × ℚ)) (c : Cand),
    pairStep op best c =
      scanStep (fun c : Cand => (c.id, c.ts)) (pairScore op) (fun _ => true) best c := by
  intro best c
  cases best with
  | none => simp [pairStep, scanStep]
  | some p =>
    obtain ⟨row, bd⟩ := p
    simp [pairStep, scanStep]

theorem pair_fold_eq (db : DB) (off_ts : ℤ) (op : ℚ) :
    (pairCandidates db off_ts).foldl (pairStep op) none =
      (pairCandidates db off_ts).foldl
        (scanStep (fun c : Cand => (c.id, c.ts)) (pairScore op) (fun _ => true)) none :=
  foldl_congr_fun (pairStep_eq_scan op) _ _

theorem pairCandidates_sorted (db : DB) (off_ts : ℤ) :
    (pairCandidates db off_ts).Pairwise (fun a b => a.ts ≤ b.ts) := by
  unfold pairCandidates
  refine pairwise_filterMap_of _ ?_ _ (sorted_sortByKey _ _)
  intro a b x y hS hfa hfb
  obtain ⟨s, hs, hx⟩ := Option.map_eq_some'.mp hfa
  obtain ⟨s', hs', hy⟩ := Option.map_eq_some'.mp hfb
  rw [← hx, ← hy]
  simpa using hS

theorem pair_unfold (db : DB) (sid : ℕ) (off_ts : ℤ) (op : ℚ) (hop : 0 < op) :
    pair_on_off_event db sid off_ts op =
      match (pairCandidates db off_ts).foldl (pairStep op) none with
      | none => (db, none)
      | some (row, bd) =>
        if max (op * (4/10)) 40 < bd then (db, none)
        else
          (update_avg_duration
            { db with events := db.events.map (fun e =>
                if e.id = row.1 then { e with duration := some (off_ts - row.2) } else e) }
            sid (off_ts - row.2),
           some (off_ts - row.2)) := by
  unfold pair_on_off_event
  rw [if_neg (not_le.mpr hop)]

theorem pair_char_none (db : DB) (sid : ℕ) (off_ts : ℤ) (op : ℚ) (hop : 0 < op)
    (hfold : (pairCandidates db off_ts).foldl (pairStep op) none = none) :
    pair_on_off_event db sid off_ts op = (db, none) := by
  rw [pair_unfold db sid off_ts op hop, hfold]

theorem pair_char_some (db : DB) (sid : ℕ) (off_ts : ℤ) (op : ℚ) (hop : 0 < op)
    (row : ℕ × ℤ) (bd : ℚ)
    (hfold : (pairCandidates db off_ts).foldl (pairStep op) none = some (row, bd)) :
    pair_on_off_event db sid off_ts op =
      if max (op * (4/10)) 40 < bd then (db, none)
      else
        (update_avg_duration
          { db with events := db.events.map (fun e =>
              if e.id = row.1 then { e with duration := some (off_ts - row.2) } else e) }
          sid (off_ts - row.2),
         some (off_ts - row.2)) := by
  rw [pair_unfold db sid off_ts op hop, hfold]

/-- C3: for an "off" event with positive power `op`, the pairing candidates
are exactly the unresolved on-events within the 12-hour lookback window that
still have a signature (joined with its average power); the scan picks the
candidate minimizing min(|op − event_power|, |op − signature_avg|), breaking
ties by earliest timestamp; the match is accepted only within
max(op*0.4, 40 W), in which case the returned duration is
off_ts − on_ts (whole seconds) and is written back to the matched on-event
(the caller stores the same value on the off event at insertion); otherwise
the database is unchanged and every candidate is beyond the acceptance
threshold — no error occurs and durations stay NULL. -/
theorem C3_pairing (db : DB) (sid : ℕ) (off_ts : ℤ) (op : ℚ) (hop : 0 < op) :
    (∀ e ∈ db.events, PairSel off_ts e → (sigById db e.signature_id).isSome = true →
      ∃ c ∈ pairCandidates db off_ts, c.id = e.id ∧ c.ts = e.timestamp ∧
        c.delta = e.power_delta) ∧
    (∀ c ∈ pairCandidates db off_ts, ∃ e ∈ db.events, PairSel off_ts e ∧
      c.id = e.id ∧ c.ts = e.timestamp ∧ c.delta = e.power_delta ∧
      (sigById db e.signature_id).map Signature.power_avg = some c.avg) ∧
    ((pair_on_off_event db sid off_ts op).2 = none →
      pair_on_off_event db sid off_ts op = (db, none) ∧
      ∀ c ∈ pairCandidates db off_ts, max (op * (4/10)) 40 < pairScore op c) ∧
    (∀ d, (pair_on_off_event db sid off_ts op).2 = some d →
      ∃ c ∈ pairCandidates db off_ts,
        pairScore op c ≤ max (op * (4/10)) 40 ∧
        (∀ c' ∈ pairCandidates db off_ts, pairScore op c ≤ pairScore op c') ∧
        (∀ c' ∈ pairCandidates db off_ts, pairScore op c' = pairScore op c → c.ts ≤ c'.ts) ∧
        d = off_ts - c.ts ∧
        pair_on_off_event db sid off_ts op =
          (update_avg_duration
            { db with events := db.events.map (fun e =>
                if e.id = c.id then { e with duration := some d } else e) } sid d,
           some d)) := by
  refine ⟨?_, ?_, ?_, ?_⟩
  · intro e he hsel hsig
    obtain ⟨s, hs⟩ := Option.isSome_iff_exists.mp hsig
    refine ⟨{ id := e.id, ts := e.timestamp, delta := e.power_delta, avg := s.power_avg },
      ?_, rfl, rfl, rfl⟩
    unfold pairCandidates
    apply List.mem_filterMap.mpr
    refine ⟨e, ?_, by rw [hs]; rfl⟩
    rw [mem_sortByKey]
    apply List.mem_filter.mpr
    refine ⟨he, ?_⟩
    unfold PairSel at hsel
    simpa using hsel
  · intro c hc
    unfold pairCandidates at hc
    obtain ⟨e, he_sorted, hfe⟩ := List.mem_filterMap.mp hc
    rw [mem_sortByKey] at he_sorted
    obtain ⟨he, hselb⟩ := List.mem_filter.mp he_sorted
    obtain ⟨s, hs, hc_eq⟩ := Option.map_eq_some'.mp hfe
    subst hc_eq
    refine ⟨e, he, ?_, rfl, rfl, rfl, by rw [hs]; rfl⟩
    unfold PairSel
    simpa using hselb
  · intro hnone
    rcases hfoldP : (pairCandidates db off_ts).foldl (pairStep op) none with _ | ⟨row, bd⟩
    · have heq := pair_char_none db sid off_ts op hop hfoldP
      have hfoldS : (pairCandidates db off_ts).foldl
          (scanStep (fun c : Cand => (c.id, c.ts)) (pairScore op) (fun _ => true)) none =
          none := by rw [← pair_fold_eq]; exact hfoldP
      obtain ⟨-, hall⟩ := scan_none _ _ hfoldS
      exact ⟨heq, fun c hc => absurd rfl (hall c hc)⟩
    · have heq := pair_char_some db sid off_ts op hop row bd hfoldP
      have hfoldS : (pairCandidates db off_ts).foldl
          (scanStep (fun c : Cand => (c.id, c.ts)) (pairScore op) (fun _ => true)) none =
          some (row, bd) := by rw [← pair_fold_eq]; exact hfoldP
      by_cases hth : max (op * (4/10)) 40 < bd
      · rw [if_pos hth] at heq
        obtain ⟨hmin, -⟩ := scan_min _ _ _ _ hfoldS
        exact ⟨heq, fun c hc => lt_of_lt_of_le hth (hmin c hc rfl)⟩
      · rw [if_neg hth] at heq
        rw [heq] at hnone
        exact absurd hnone (by simp)
  · intro d hd
    rcases hfoldP : (pairCandidates db off_ts).foldl (pairStep op) none with _ | ⟨row, bd⟩
    · rw [pair_char_none db sid off_ts op hop hfoldP] at hd
      exact absurd hd (by simp)
    · have heq := pair_char_some db sid off_ts op hop row bd hfoldP
      have hfoldS : (pairCandidates db off_ts).foldl
          (scanStep (fun c : Cand => (c.id, c.ts)) (pairScore op) (fun _ => true)) none =
          some (row, bd) := by rw [← pair_fold_eq]; exact hfoldP
      by_cases hth : max (op * (4/10)) 40 < bd
      · rw [if_pos hth] at heq
        rw [heq] at hd
        exact absurd hd (by simp)
      · rw [if_neg hth] at heq
        rw [heq] at hd
        have hdd : d = off_ts - row.2 := by simpa using hd.symm
        rcases scan_provenance _ _ _ _ hfoldS with hacc | ⟨c, hc, -, hrow, hbd⟩
        · exact absurd hacc (by simp)
        · obtain ⟨hmin, -⟩ := scan_min _ _ _ _ hfoldS
          have hsorted : (pairCandidates db off_ts).Pairwise
              (fun a b => Prod.snd ((fun c : Cand => (c.id, c.ts)) a) ≤
                Prod.snd ((fun c : Cand => (c.id, c.ts)) b)) := by
            have h := pairCandidates_sorted db off_ts
            exact h.imp (fun h => h)
          obtain ⟨htie, -⟩ := scan_tie Prod.snd _ hsorted none
            (fun p e h => absurd h (by simp)) _ _ hfoldS
          have hcid : row.1 = c.id := by rw [hrow]
          have hcts : row.2 = c.ts := by rw [hrow]
          subst hdd
          refine ⟨c, hc, ?_, ?_, ?_, by rw [hcts], ?_⟩
          · rw [← hbd]; exact not_lt.mp hth
          · intro c' hc'
            rw [← hbd]
            exact hmin c' hc' rfl
          · intro c' hc' hsc
            have h2 := htie c' hc' rfl (by rw [hsc, hbd])
            rw [hrow] at h2
            exact h2
          · rw [heq, hcid, hcts]

theorem C3_witness :
    (0 : ℚ) < 150 ∧
    (pair_on_off_event c4db 1 3600 150).2 = some 3600 ∧
    (∃ c ∈ pairCandidates c4db 3600,
      pairScore 150 c ≤ max ((150 : ℚ) * (4/10)) 40 ∧
      (∀ c' ∈ pairCandidates c4db 3600, pairScore 150 c ≤ pairScore 150 c') ∧
      (∀ c' ∈ pairCandidates c4db 3600,
        pairScore 150 c' = pairScore 150 c → c.ts ≤ c'.ts) ∧
      (3600 : ℤ) = 3600 - c.ts ∧
      pair_on_off_event c4db 1 3600 150 =
        (update_avg_duration
          { c4db with events := c4db.events.map (fun e =>
              if e.id = c.id then { e with duration := some 3600 } else e) } 1 3600,
         some 3600)) := by
  have hsome : (pair_on_off_event c4db 1 3600 150).2 = some 3600 := by
    norm_num [pair_on_off_event, pairCandidates, sortByKey, insertByKey, sigById,
      pairStep, pairScore, update_avg_duration, roundTo, pyRound, MAX_PAIRING_HOURS,
      c4db, emptyDB, baseSig, baseOnEvent,
      List.foldl_cons, List.foldl_nil, List.filterMap_cons, List.filterMap_nil,
      List.find?_cons, List.find?_nil, List.filter_cons, List.filter_nil,
      List.foldr_cons, List.foldr_nil]
  exact ⟨by norm_num, hsome,
    (C3_pairing c4db 1 3600 150 (by norm_num)).2.2.2 3600 hsome⟩

/-! ### C5: active-appliance pruning -/

theorem map_id_of {α : Type} (f : α → α) :
    ∀ l : List α, (∀ x ∈ l, f x = x) → l.map f = l := by
  intro l
  induction l with
  | nil => intro _; rfl
  | cons x xs ih =>
    intro h
    rw [List.map_cons, h x (List.mem_cons_self ..),
      ih (fun y hy => h y (List.mem_cons_of_mem _ hy))]

theorem pruneOldest_two (thr : ℚ) (a b : ActiveEntry) (t : ℚ)
    (h1 : thr < t) (h2 : thr < t - a.power) :
    pruneOldest thr [a, b] t = ([], [a.event_id, b.event_id]) := by
  have hb : pruneOldest thr [b] (t - a.power) = ([], [b.event_id]) := by
    unfold pruneOldest
    rw [if_pos h2]
    rfl
  unfold pruneOldest
  rw [if_pos h1]
  rw [show pruneOldest thr [b] (t - a.power) = ([], [b.event_id]) from hb]

/-- C5 (amended): with exactly two unresolved "on" events, both less than
4 hours old, and the live load equal to the idle baseline (so the observed
appliance-only power is 0 W and the pruning floor is 50 W),
`get_active_appliances` returns the empty list and marks both events'
durations with the stale sentinel −1, PROVIDED the two signatures' claimed
powers sum to more than 50 W and the newer event's claimed power alone
exceeds 50 W — the loop pops oldest-first only while the remaining claimed
total still exceeds the floor, so without these provisos pruning is partial
or absent. -/
theorem C5_idle_load_pruning (now : ℤ) (db : DB) (e1 e2 : LoadEvent) (s1 s2 : Signature)
    (hflt : db.events.filter
      (fun e => decide (e.event_type = EvType.on ∧ e.duration = none)) = [e1, e2])
    (h1ts : now - 4 * 3600 ≤ e1.timestamp) (h2ts : now - 4 * 3600 ≤ e2.timestamp)
    (hord : e1.timestamp ≤ e2.timestamp)
    (hs1 : sigById db e1.signature_id = some s1) (hs2 : sigById db e2.signature_id = some s2)
    (hsum : 50 < s1.power_avg + s2.power_avg) (hpow : 50 < s2.power_avg) :
    (get_active_appliances now db (some INVERTER_IDLE_LOAD)).2 = [] ∧
    (get_active_appliances now db (some INVERTER_IDLE_LOAD)).1.events =
      db.events.map (fun e =>
        if e.id = e1.id ∨ e.id = e2.id then { e with duration := some (-1) } else e) := by
  have hfresh : expireStale now db.events = db.events := by
    unfold expireStale
    apply map_id_of
    intro e he
    by_cases hcond : e.event_type = EvType.on ∧ e.duration = none ∧
        e.timestamp < now - 4 * 3600
    · exfalso
      have hmem : e ∈ db.events.filter
          (fun e => decide (e.event_type = EvType.on ∧ e.duration = none)) :=
        List.mem_filter.mpr ⟨he, by simp [hcond.1, hcond.2.1]⟩
      rw [hflt] at hmem
      rcases List.mem_cons.mp hmem with rfl | hmem
      · exact absurd hcond.2.2 (not_lt.mpr h1ts)
      · rcases List.mem_cons.mp hmem with rfl | hmem
        · exact absurd hcond.2.2 (not_lt.mpr h2ts)
        · exact absurd hmem (List.not_mem_nil _)
    · exact if_neg hcond
  have hdb1 : { db with events := expireStale now db.events } = db := by rw [hfresh]
  have hsort : sortByKey LoadEvent.timestamp [e1, e2] = [e1, e2] := by
    show insertByKey LoadEvent.timestamp e1 (insertByKey LoadEvent.timestamp e2 []) = [e1, e2]
    rw [show insertByKey LoadEvent.timestamp e2 [] = [e2] from rfl]
    show (if e2.timestamp < e1.timestamp then
        e2 :: insertByKey LoadEvent.timestamp e1 [] else e1 :: e2 :: []) = [e1, e2]
    rw [if_neg (not_lt.mpr hord)]
  have hAE : activeEntries now db =
      [{ id := s1.id, event_id := e1.id, power := s1.power_avg, label := s1.user_label,
         icon := s1.icon, color := s1.color, duration := now - e1.timestamp },
       { id := s2.id, event_id := e2.id, power := s2.power_avg, label := s2.user_label,
         icon := s2.icon, color := s2.color, duration := now - e2.timestamp }] := by
    unfold activeEntries
    rw [hflt, hsort]
    rw [List.filterMap_cons, List.filterMap_cons, List.filterMap_nil, hs1, hs2]
    rfl
  have hsum2 : ((max (0:ℚ) (INVERTER_IDLE_LOAD - INVERTER_IDLE_LOAD)) * (3/2) + 50) <
      s1.power_avg + (s2.power_avg + 0) := by
    norm_num [INVERTER_IDLE_LOAD]
    linarith
  have hprune := pruneOldest_two
    ((max (0:ℚ) (INVERTER_IDLE_LOAD - INVERTER_IDLE_LOAD)) * (3/2) + 50)
    { id := s1.id, event_id := e1.id, power := s1.power_avg, label := s1.user_label,
      icon := s1.icon, color := s1.color, duration := now - e1.timestamp }
    { id := s2.id, event_id := e2.id, power := s2.power_avg, label := s2.user_label,
      icon := s2.icon, color := s2.color, duration := now - e2.timestamp }
    (s1.power_avg + (s2.power_avg + 0)) hsum2
    (by norm_num [INVERTER_IDLE_LOAD]; linarith)
  constructor
  · simp only [get_active_appliances, hdb1, hAE]
    rw [if_pos (by norm_num)]
    rw [if_pos (by simpa using hsum2)]
    simp only [List.map_cons, List.map_nil, List.sum_cons, List.sum_nil]
    rw [hprune]
  · simp only [get_active_appliances, hdb1, hAE]
    rw [if_pos (by norm_num)]
    rw [if_pos (by simpa using hsum2)]
    simp only [List.map_cons, List.map_nil, List.sum_cons, List.sum_nil]
    simp only [hprune, hfresh]
    apply List.map_congr_left
    intro e he
    by_cases h : e.id = e1.id ∨ e.id = e2.id
    · rw [if_pos h]
      have hc : [e1.id, e2.id].contains e.id = true := by
        rw [List.contains_iff_exists_mem_beq]
        rcases h with h | h
        · exact ⟨e1.id, by simp, by simp [h]⟩
        · exact ⟨e2.id, by simp, by simp [h]⟩
      rw [if_pos hc]
    · rw [if_neg h]
      have hnc : ¬ ([e1.id, e2.id].contains e.id = true) := by
        rw [List.contains_iff_exists_mem_beq]
        simp only [List.mem_cons, List.not_mem_nil, or_false, beq_iff_eq]
        rintro ⟨a, ha, rfl⟩
        tauto
      rw [if_neg hnc]

theorem C5_witness :
    (get_active_appliances 3000 c5bigDB (some INVERTER_IDLE_LOAD)).2 = [] ∧
    (get_active_appliances 3000 c5bigDB (some INVERTER_IDLE_LOAD)).1.events =
      c5bigDB.events.map (fun e =>
        if e.id = (baseOnEvent 1 1000 60 1).id ∨ e.id = (baseOnEvent 2 2000 60 2).id
        then { e with duration := some (-1) } else e) :=
  C5_idle_load_pruning 3000 c5bigDB (baseOnEvent 1 1000 60 1) (baseOnEvent 2 2000 60 2)
    (baseSig 1 60 1) (baseSig 2 60 1)
    (by simp [c5bigDB, emptyDB, baseOnEvent])
    (by norm_num [baseOnEvent]) (by norm_num [baseOnEvent]) (by norm_num [baseOnEvent])
    (by simp [sigById, c5bigDB, emptyDB, baseSig, baseOnEvent])
    (by simp [sigById, c5bigDB, emptyDB, baseSig, baseOnEvent])
    (by norm_num [baseSig]) (by norm_num [baseSig])


/-! ### C8 (amended): label restoration characterization -/

theorem restoreStep_eq_scan (key : ℤ) : ∀ (best : Option (SavedLabel × ℤ)) (e : SavedLabel),
    restoreStep key best e =
      scanStep (fun x : SavedLabel => x) (fun x => |key - x.key|)
        (fun x => decide (RestoreQual key x)) best e := by
  intro best e
  cases best with
  | none =>
    by_cases h1 : ((|key - e.key| : ℤ) : ℚ) ≤ max ((key : ℚ) * SIGNATURE_TOLERANCE) EDGE_THRESHOLD
    · by_cases h2 : e.label ∈ autoLabels
      · simp [restoreStep, scanStep, RestoreQual, h1, h2]
      · simp [restoreStep, scanStep, RestoreQual, h1, h2]
    · have h1' : ¬ (|(key : ℚ) - (e.key : ℚ)| ≤ (key : ℚ) * SIGNATURE_TOLERANCE ∨
          |(key : ℚ) - (e.key : ℚ)| ≤ EDGE_THRESHOLD) := by
        rw [← le_max_iff]
        intro hc
        apply h1
        push_cast
        exact hc
      simp [restoreStep, scanStep, RestoreQual, h1, h1']
  | some p =>
    obtain ⟨b, bd⟩ := p
    by_cases h1 : ((|key - e.key| : ℤ) : ℚ) ≤ max ((key : ℚ) * SIGNATURE_TOLERANCE) EDGE_THRESHOLD
    · by_cases h3 : |key - e.key| < bd
      · by_cases h2 : e.label ∈ autoLabels
        · simp [restoreStep, scanStep, RestoreQual, h1, h2, h3]
        · simp [restoreStep, scanStep, RestoreQual, h1, h2, h3]
      · simp [restoreStep, scanStep, RestoreQual, h1, h3]
    · have h1' : ¬ (|(key : ℚ) - (e.key : ℚ)| ≤ (key : ℚ) * SIGNATURE_TOLERANCE ∨
          |(key : ℚ) - (e.key : ℚ)| ≤ EDGE_THRESHOLD) := by
        rw [← le_max_iff]
        intro hc
        apply h1
        push_cast
        exact hc
      simp [restoreStep, scanStep, RestoreQual, h1, h1']

theorem restore_fold_eq (saved : List SavedLabel) (key : ℤ) :
    saved.foldl (restoreStep key) none =
      saved.foldl (scanStep (fun x : SavedLabel => x) (fun x => |key - x.key|)
        (fun x => decide (RestoreQual key x))) none :=
  foldl_congr_fun (restoreStep_eq_scan key) _ _

theorem mem_upsertSaved (l : List SavedLabel) (e : SavedLabel) :
    ∀ x ∈ upsertSaved l e, x = e ∨ x ∈ l := by
  intro x hx
  unfold upsertSaved at hx
  by_cases h : l.any (fun y => y.key == e.key)
  · rw [if_pos h] at hx
    obtain ⟨y, hy, hxy⟩ := List.mem_map.mp hx
    by_cases hk : y.key = e.key
    · left
      rw [if_pos hk] at hxy
      rw [← hxy, hk]
    · right
      rw [if_neg hk] at hxy
      rw [← hxy]
      exact hy
  · rw [if_neg h] at hx
    rcases List.mem_append.mp hx with h1 | h2
    · exact Or.inr h1
    · left
      simpa using h2

theorem save_fold_mem (P : SavedLabel → Prop) :
    ∀ (l : List Signature) (acc : List SavedLabel),
      (∀ x ∈ acc, P x) →
      (∀ s ∈ l, P { key := pyRound s.power_avg, label := s.user_label,
                    icon := s.icon, color := s.color }) →
      ∀ x ∈ l.foldl (fun acc s => upsertSaved acc
          { key := pyRound s.power_avg, label := s.user_label,
            icon := s.icon, color := s.color }) acc, P x := by
  intro l
  induction l with
  | nil => intro acc hacc _ x hx; exact hacc x hx
  | cons s ss ih =>
    intro acc hacc hl x hx
    rw [List.foldl_cons] at hx
    refine ih _ ?_ (fun t ht => hl t (List.mem_cons_of_mem _ ht)) x hx
    intro y hy
    rcases mem_upsertSaved _ _ y hy with h | h
    · rw [h]
      exact hl s (List.mem_cons_self _ _)
    · exact hacc y h


/-- C8 (amended): across reanalysis the snapshot maps each rounded power
key to the label/icon/color of the last pre-reanalysis signature with that
rounded power (every snapshot entry comes from some signature, auto labels
included).  `_restore_user_labels` equips a rebuilt signature with the
closest snapshot entry that is within tolerance of its rounded power AND
whose label is not one of the auto placeholder strings; if no such entry
exists (in particular if every in-tolerance entry carries an auto label)
the signature keeps its fresh auto-suggestion.  Auto-labelled entries are
never restored. -/
theorem C8_label_restore_amended :
    (∀ (saved : List SavedLabel) (s : Signature) (x : SavedLabel),
        restoreChoice saved s = some x →
          x ∈ saved ∧ RestoreQual (pyRound s.power_avg) x ∧
          ∀ y ∈ saved, RestoreQual (pyRound s.power_avg) y →
            |pyRound s.power_avg - x.key| ≤ |pyRound s.power_avg - y.key|) ∧
    (∀ (saved : List SavedLabel) (s : Signature),
        restoreChoice saved s = none ↔
          ∀ x ∈ saved, ¬ RestoreQual (pyRound s.power_avg) x) ∧
    (∀ (saved : List SavedLabel) (db : DB) (s : Signature), s ∈ db.signatures →
        (∀ x, restoreChoice saved s = some x →
          { s with user_label := x.label, icon := x.icon, color := x.color }
            ∈ (restore_user_labels db saved).signatures) ∧
        (restoreChoice saved s = none → s ∈ (restore_user_labels db saved).signatures)) ∧
    (∀ (db : DB) (x : SavedLabel), x ∈ save_user_labels db →
        ∃ s ∈ db.signatures, x = { key := pyRound s.power_avg, label := s.user_label,
                                   icon := s.icon, color := s.color }) := by
  refine ⟨?_, ?_, ?_, ?_⟩
  · intro saved s x hx
    unfold restoreChoice at hx
    rw [restore_fold_eq] at hx
    rcases hfold : saved.foldl
        (scanStep (fun x : SavedLabel => x) (fun x => |pyRound s.power_avg - x.key|)
          (fun x => decide (RestoreQual (pyRound s.power_avg) x))) none with _ | p
    · rw [hfold] at hx; exact absurd hx (by simp)
    · obtain ⟨b, d⟩ := p
      rw [hfold] at hx
      have hbx : b = x := by simpa using hx
      subst hbx
      rcases scan_provenance _ _ _ _ hfold with hacc | ⟨y, hy, hq, hb, hd⟩
      · exact absurd hacc (by simp)
      · obtain ⟨hmin, -⟩ := scan_min _ _ _ _ hfold
        subst hb
        refine ⟨hy, by simpa using hq, fun z hz hqz => ?_⟩
        have := hmin z hz (by simpa using hqz)
        rw [hd] at this
        exact this
  · intro saved s
    constructor
    · intro hnone x hx hq
      unfold restoreChoice at hnone
      rw [restore_fold_eq] at hnone
      rcases hfold : saved.foldl
          (scanStep (fun x : SavedLabel => x) (fun x => |pyRound s.power_avg - x.key|)
            (fun x => decide (RestoreQual (pyRound s.power_avg) x))) none with _ | p
      · obtain ⟨-, hall⟩ := scan_none _ _ hfold
        exact hall x hx (by simpa using hq)
      · rw [hfold] at hnone
        exact absurd hnone (by simp)
    · intro hall
      unfold restoreChoice
      rw [restore_fold_eq]
      rcases hfold : saved.foldl
          (scanStep (fun x : SavedLabel => x) (fun x => |pyRound s.power_avg - x.key|)
            (fun x => decide (RestoreQual (pyRound s.power_avg) x))) none with _ | p
      · rfl
      · obtain ⟨b, d⟩ := p
        rcases scan_provenance _ _ _ _ hfold with hacc | ⟨y, hy, hq, hb, hd⟩
        · exact absurd hacc (by simp)
        · exact absurd (by simpa using hq) (hall y hy)
  · intro saved db s hs
    constructor
    · intro x hx
      unfold restore_user_labels
      simp only [List.mem_map]
      exact ⟨s, hs, by rw [hx]⟩
    · intro hx
      unfold restore_user_labels
      simp only [List.mem_map]
      exact ⟨s, hs, by rw [hx]⟩
  · intro db x hx
    exact save_fold_mem
      (fun x => ∃ s ∈ db.signatures, x = { key := pyRound s.power_avg, label := s.user_label, icon := s.icon, color := s.color })
      db.signatures [] (by simp) (fun s hs => ⟨s, hs, rfl⟩) x hx

theorem C8_witness :
    restoreChoice [c8savedFridge] c8newSig = some c8savedFridge ∧
    c8savedFridge ∈ [c8savedFridge] ∧
    RestoreQual (pyRound c8newSig.power_avg) c8savedFridge ∧
    (∀ y ∈ [c8savedFridge], RestoreQual (pyRound c8newSig.power_avg) y →
      |pyRound c8newSig.power_avg - c8savedFridge.key| ≤
        |pyRound c8newSig.power_avg - y.key|) ∧
    { c8newSig with user_label := c8savedFridge.label, icon := c8savedFridge.icon, color := c8savedFridge.color } ∈
      (restore_user_labels { emptyDB with signatures := [c8newSig] }
        [c8savedFridge]).signatures := by
  have hp3 : pyRound (100 : ℚ) = 100 := by norm_num [pyRound]
  have hchoice : restoreChoice [c8savedFridge] c8newSig = some c8savedFridge := by
    simp [restoreChoice, restoreStep, c8savedFridge, c8newSig, baseSig, hp3, autoLabels]
    norm_num [SIGNATURE_TOLERANCE, EDGE_THRESHOLD]
  obtain ⟨hmem, hqual, hmin⟩ := C8_label_restore_amended.1 [c8savedFridge] c8newSig
    c8savedFridge hchoice
  exact ⟨hchoice, hmem, hqual, hmin,
    (C8_label_restore_amended.2.2.1 [c8savedFridge]
        { emptyDB with signatures := [c8newSig] } c8newSig (by simp)).1
      c8savedFridge hchoice⟩

/-! ### C6 (amended): the signature invariant as an inductive invariant -/

theorem sig_id_map_eq (l : List Signature) (f : Signature → Signature)
    (hid : ∀ s, (f s).id = s.id) :
    (l.map f).map Signature.id = l.map Signature.id := by
  rw [List.map_map]
  exact List.map_congr_left (fun s _ => hid s)

theorem DBInv_map (db : DB) (f : Signature → Signature)
    (hid : ∀ s, (f s).id = s.id)
    (h : DBInv db)
    (hinv : ∀ s ∈ db.signatures, SigInv (f s) ∧ SigGrid (f s)) :
    DBInv { db with signatures := db.signatures.map f } := by
  obtain ⟨⟨hnd, hlt⟩, -⟩ := h
  refine ⟨⟨?_, ?_⟩, ?_⟩
  · show ((db.signatures.map f).map Signature.id).Nodup
    rw [sig_id_map_eq db.signatures f hid]
    exact hnd
  · intro t ht
    obtain ⟨s, hs, rfl⟩ := List.mem_map.mp ht
    show (f s).id < db.next_sig_id
    rw [hid s]
    exact hlt s hs
  · intro t ht
    obtain ⟨s, hs, rfl⟩ := List.mem_map.mp ht
    exact hinv s hs

theorem eq_of_mem_id (l : List Signature) (hnd : (l.map Signature.id).Nodup)
    {a b : Signature} (ha : a ∈ l) (hb : b ∈ l) (hid : a.id = b.id) : a = b :=
  List.inj_on_of_nodup_map hnd ha hb hid

theorem convexAvg_bounds (lo hi avg pd : ℚ) (n : ℕ) (h1 : lo ≤ avg) (h2 : avg ≤ hi)
    (h3 : lo ≤ pd) (h4 : pd ≤ hi) :
    lo ≤ (avg * n + pd) / (n + 1) ∧ (avg * n + pd) / (n + 1) ≤ hi := by
  have hn : (0 : ℚ) < (n : ℚ) + 1 := by positivity
  have hn0 : (0 : ℚ) ≤ (n : ℚ) := Nat.cast_nonneg n
  constructor
  · rw [le_div_iff₀ hn]
    nlinarith [mul_le_mul_of_nonneg_right h1 hn0]
  · rw [div_le_iff₀ hn]
    nlinarith [mul_le_mul_of_nonneg_right h2 hn0]

theorem DBInv_create (db : DB) (pd : ℚ) (leg : Leg) (h : DBInv db) (hpd : isTenth pd) :
    DBInv (create_signature db pd leg).2 := by
  obtain ⟨⟨hnd, hlt⟩, hsi⟩ := h
  unfold create_signature
  refine ⟨⟨?_, ?_⟩, ?_⟩
  · show ((db.signatures ++ [_]).map Signature.id).Nodup
    rw [List.map_append, List.nodup_append]
    refine ⟨hnd, by simp, ?_⟩
    intro a ha hb
    obtain ⟨s, hs, hsa⟩ := List.mem_map.mp ha
    have hlt' := hlt s hs
    simp only [List.map_cons, List.map_nil, List.mem_singleton] at hb
    omega
  · intro t ht
    rcases List.mem_append.mp ht with h1 | h2
    · have := hlt t h1
      show t.id < db.next_sig_id + 1
      omega
    · simp only [List.mem_singleton] at h2
      rw [h2]
      show db.next_sig_id < db.next_sig_id + 1
      omega
  · intro t ht
    rcases List.mem_append.mp ht with h1 | h2
    · exact hsi t h1
    · simp only [List.mem_singleton] at h2
      rw [h2]
      exact ⟨⟨⟨le_refl _, le_refl _⟩, le_refl 0, fun hc => absurd hc (lt_irrefl 0)⟩,
        hpd, hpd, hpd⟩

theorem DBInv_update (db : DB) (sid : ℕ) (pd : ℚ) (h : DBInv db) (hpd : isTenth pd) :
    DBInv (update_signature db sid pd) := by
  unfold update_signature
  refine DBInv_map db _ (fun s => ?_) h (fun s hs => ?_)
  · by_cases hid : s.id = sid
    · rw [if_pos hid]
    · rw [if_neg hid]
  · obtain ⟨⟨⟨hm, hM⟩, hac, hai⟩, hga, hgm, hgM⟩ := h.2 s hs
    by_cases hid : s.id = sid
    · rw [if_pos hid]
      have hb := convexAvg_bounds (min s.power_min pd) (max s.power_max pd)
        s.power_avg pd s.event_count (le_trans (min_le_left _ _) hm)
        (le_trans hM (le_max_left _ _)) (min_le_right _ _) (le_max_right _ _)
      have hr := roundTo1_bounds _ _ _ (isTenth_min _ _ hgm hpd)
        (isTenth_max _ _ hgM hpd) hb.1 hb.2
      exact ⟨⟨⟨hr.1, hr.2⟩, hac, hai⟩,
        isTenth_roundTo1 _, isTenth_min _ _ hgm hpd, isTenth_max _ _ hgM hpd⟩
    · rw [if_neg hid]
      exact ⟨⟨⟨hm, hM⟩, hac, hai⟩, hga, hgm, hgM⟩

theorem DBInv_decrement (db : DB) (tid : ℕ) (t : Signature) (nc : ℤ)
    (h : DBInv db) (ht : t ∈ db.signatures) (htid : t.id = tid)
    (hta : ¬ nc ≤ 0 → t.is_active = true) :
    DBInv { db with signatures := db.signatures.map (fun s =>
      if s.id = tid then
        if nc ≤ 0 then { s with is_active := false, active_count := 0 }
        else { s with active_count := nc }
      else s) } := by
  refine DBInv_map db _ (fun s => ?_) h (fun s hs => ?_)
  · by_cases hid : s.id = tid
    · rw [if_pos hid]
      by_cases hnc : nc ≤ 0
      · rw [if_pos hnc]
      · rw [if_neg hnc]
    · rw [if_neg hid]
  · obtain ⟨⟨⟨hm, hM⟩, hac, hai⟩, hg⟩ := h.2 s hs
    by_cases hid : s.id = tid
    · rw [if_pos hid]
      by_cases hnc : nc ≤ 0
      · rw [if_pos hnc]
        exact ⟨⟨⟨hm, hM⟩, le_refl 0, fun hc => absurd hc (lt_irrefl 0)⟩, hg⟩
      · rw [if_neg hnc]
        have hst : s = t := eq_of_mem_id db.signatures h.1.1 hs ht (by rw [hid, htid])
        refine ⟨⟨⟨hm, hM⟩, by show (0 : ℤ) ≤ nc; omega, fun _ => ?_⟩, hg⟩
        show s.is_active = true
        rw [hst]
        exact hta hnc
    · rw [if_neg hid]
      exact ⟨⟨⟨hm, hM⟩, hac, hai⟩, hg⟩

theorem DBInv_active_off (db : DB) (sid : ℕ) (fb : DB) (h : DBInv db) (hfb : DBInv fb) :
    DBInv (match db.signatures.find? (fun s => s.id == sid && s.is_active) with
      | some s0 =>
        if 0 < s0.active_count then
          { db with signatures := db.signatures.map (fun s =>
              if s.id = sid then
                if s0.active_count - 1 ≤ 0 then
                  { s with is_active := false, active_count := 0 }
                else { s with active_count := s0.active_count - 1 }
              else s) }
        else fb
      | none => fb) := by
  rcases hfind : db.signatures.find? (fun s => s.id == sid && s.is_active) with _ | s0
  · rw [hfind]
    exact hfb
  · rw [hfind]
    have hif : DBInv (if 0 < s0.active_count then
        { db with signatures := db.signatures.map (fun s =>
            if s.id = sid then
              if s0.active_count - 1 ≤ 0 then
                { s with is_active := false, active_count := 0 }
              else { s with active_count := s0.active_count - 1 }
            else s) }
      else fb) := by
      by_cases hac0 : 0 < s0.active_count
      · rw [if_pos hac0]
        have hmem := List.mem_of_find?_eq_some hfind
        have hps := List.find?_some hfind
        simp only [Bool.and_eq_true, beq_iff_eq] at hps
        exact DBInv_decrement db sid s0 _ h hmem hps.1 (fun _ => hps.2)
      · rw [if_neg hac0]
        exact hfb
    exact hif

theorem DBInv_active (db : DB) (sid : ℕ) (et : EvType) (ts : ℤ) (pd : ℚ)
    (h : DBInv db) : DBInv (update_signature_active_state db sid et ts pd) := by
  have hfb : DBInv (if 0 < pd then
      match db.signatures.find? (fun s =>
          s.is_active && decide (|pd - s.power_avg| ≤
            max (s.power_avg * SIGNATURE_TOLERANCE) EDGE_THRESHOLD)) with
      | some t =>
        { db with signatures := db.signatures.map (fun s =>
            if s.id = t.id then
              if (if t.active_count = 0 then 1 else t.active_count) - 1 ≤ 0 then
                { s with is_active := false, active_count := 0 }
              else { s with active_count :=
                (if t.active_count = 0 then 1 else t.active_count) - 1 }
            else s) }
      | none => db
    else db) := by
    by_cases hpd : 0 < pd
    · rw [if_pos hpd]
      rcases hfind : db.signatures.find? (fun s =>
          s.is_active && decide (|pd - s.power_avg| ≤
            max (s.power_avg * SIGNATURE_TOLERANCE) EDGE_THRESHOLD)) with _ | t
      · rw [hfind]
        exact h
      · rw [hfind]
        have hmem := List.mem_of_find?_eq_some hfind
        have hact : t.is_active = true := by
          have hps := List.find?_some hfind
          simp only [Bool.and_eq_true, decide_eq_true_eq] at hps
          exact hps.1
        exact DBInv_decrement db t.id t _ h hmem rfl (fun _ => hact)
    · rw [if_neg hpd]
      exact h
  cases et
  · refine DBInv_map db _ (fun s => ?_) h (fun s hs => ?_)
    · by_cases hid : s.id = sid
      · rw [if_pos hid]
      · rw [if_neg hid]
    · obtain ⟨⟨⟨hm, hM⟩, hac, hai⟩, hg⟩ := h.2 s hs
      by_cases hid : s.id = sid
      · rw [if_pos hid]
        refine ⟨⟨⟨hm, hM⟩, ?_, fun _ => rfl⟩, hg⟩
        show (0 : ℤ) ≤ s.active_count + 1
        omega
      · rw [if_neg hid]
        exact ⟨⟨⟨hm, hM⟩, hac, hai⟩, hg⟩
  · exact DBInv_active_off db sid _ h hfb

theorem DBInv_avg_duration (db : DB) (sid : ℕ) (d : ℤ) (h : DBInv db) :
    DBInv (update_avg_duration db sid d) := by
  unfold update_avg_duration
  refine DBInv_map db _ (fun s => ?_) h (fun s hs => ?_)
  · by_cases hid : s.id = sid
    · rw [if_pos hid]
    · rw [if_neg hid]
  · obtain ⟨⟨⟨hm, hM⟩, hac, hai⟩, hg⟩ := h.2 s hs
    by_cases hid : s.id = sid
    · rw [if_pos hid]
      exact ⟨⟨⟨hm, hM⟩, hac, hai⟩, hg⟩
    · rw [if_neg hid]
      exact ⟨⟨⟨hm, hM⟩, hac, hai⟩, hg⟩

theorem DBInv_pair (db : DB) (sid : ℕ) (ts : ℤ) (p : ℚ) (h : DBInv db) :
    DBInv (pair_on_off_event db sid ts p).1 := by
  simp only [pair_on_off_event]
  repeat' split
  all_goals first
    | exact h
    | exact DBInv_avg_duration _ _ _ h

theorem DBInv_daily_cycles (db : DB) (sid : ℕ) (h : DBInv db) :
    DBInv (update_daily_cycles db sid) := by
  simp only [update_daily_cycles]
  repeat' split
  all_goals try exact h
  refine DBInv_map db _ (fun s => ?_) h (fun s hs => ?_)
  · by_cases hid : s.id = sid
    · rw [if_pos hid]
    · rw [if_neg hid]
  · obtain ⟨⟨⟨hm, hM⟩, hac, hai⟩, hg⟩ := h.2 s hs
    by_cases hid : s.id = sid
    · rw [if_pos hid]
      exact ⟨⟨⟨hm, hM⟩, hac, hai⟩, hg⟩
    · rw [if_neg hid]
      exact ⟨⟨⟨hm, hM⟩, hac, hai⟩, hg⟩

theorem DBInv_daily_stats (today : ℤ) (db : DB) (sid : ℕ) (pd : ℚ) (d : ℤ)
    (h : DBInv db) : DBInv (update_daily_stats today db sid pd d) := by
  unfold update_daily_stats
  exact DBInv_daily_cycles _ _ h

set_option maxHeartbeats 2000000 in
theorem DBInv_detect_edge (today : ℤ) (det : Detector) (db : DB) (sm : ℚ)
    (l1 l2 : Option ℚ) (ts : ℤ) (h : DBInv db) :
    DBInv (detect_edge today det db sm l1 l2 ts).2.1 := by
  rcases hsl : det.stable_level with _ | stable
  · simp only [detect_edge, hsl]
    exact h
  · simp only [detect_edge, hsl]
    by_cases h1 : |det.recent_loads.head?.getD sm - stable| < EDGE_THRESHOLD
    · rw [if_pos h1]
      exact h
    · rw [if_neg h1]
      by_cases h2 : ts - det.last_event_time < DEBOUNCE_SECONDS
      · rw [if_pos h2]
        exact h
      · rw [if_neg h2]
        by_cases h3 : 0 < det.recent_loads.head?.getD sm - stable
        · rw [if_pos h3]
          rcases hf : find_matching_signature db
              (roundTo 1 |det.recent_loads.head?.getD sm - stable|) with _ | i
          · exact DBInv_active (insert_event (create_signature db _ _).2 ts _ _ _ _ _ _)
              _ _ _ _ (DBInv_create _ _ _ h (isTenth_roundTo1 _))
          · exact DBInv_active (insert_event (update_signature db i _) ts _ _ _ _ _ _)
              _ _ _ _ (DBInv_update _ _ _ h (isTenth_roundTo1 _))
        · rw [if_neg h3]
          rcases hf : find_matching_signature db
              (roundTo 1 |det.recent_loads.head?.getD sm - stable|) with _ | i
          · rcases hp : pair_on_off_event
                (create_signature db (roundTo 1 |det.recent_loads.head?.getD sm - stable|)
                  (if |l1.getD 0 - l2.getD 0| < 20 then Leg.both
                   else if l2.getD 0 < l1.getD 0 then Leg.l1 else Leg.l2)).2
                (create_signature db (roundTo 1 |det.recent_loads.head?.getD sm - stable|)
                  (if |l1.getD 0 - l2.getD 0| < 20 then Leg.both
                   else if l2.getD 0 < l1.getD 0 then Leg.l1 else Leg.l2)).1
                ts (roundTo 1 |det.recent_loads.head?.getD sm - stable|) with ⟨db2, dur⟩
            have hpp := DBInv_pair
              (create_signature db (roundTo 1 |det.recent_loads.head?.getD sm - stable|)
                (if |l1.getD 0 - l2.getD 0| < 20 then Leg.both
                 else if l2.getD 0 < l1.getD 0 then Leg.l1 else Leg.l2)).2
              (create_signature db (roundTo 1 |det.recent_loads.head?.getD sm - stable|)
                (if |l1.getD 0 - l2.getD 0| < 20 then Leg.both
                 else if l2.getD 0 < l1.getD 0 then Leg.l1 else Leg.l2)).1
              ts (roundTo 1 |det.recent_loads.head?.getD sm - stable|)
              (DBInv_create db (roundTo 1 |det.recent_loads.head?.getD sm - stable|)
                (if |l1.getD 0 - l2.getD 0| < 20 then Leg.both
                 else if l2.getD 0 < l1.getD 0 then Leg.l1 else Leg.l2) h (isTenth_roundTo1 _))
            rw [hp] at hpp
            rcases dur with _ | d
            · dsimp only []
              exact DBInv_active (insert_event db2 ts _ _ _ _ _ _) _ _ _ _ hpp
            · dsimp only []
              by_cases hd : d = 0
              · subst hd
                rw [if_pos rfl]
                exact DBInv_active (insert_event db2 ts _ _ _ _ _ _) _ _ _ _ hpp
              · rw [if_neg hd]
                exact DBInv_daily_stats _ _ _ _ _
                  (DBInv_active (insert_event db2 ts _ _ _ _ _ _) _ _ _ _ hpp)
          · rcases hp : pair_on_off_event
                (update_signature db i (roundTo 1 |det.recent_loads.head?.getD sm - stable|))
                i ts (roundTo 1 |det.recent_loads.head?.getD sm - stable|) with ⟨db2, dur⟩
            have hpp := DBInv_pair
              (update_signature db i (roundTo 1 |det.recent_loads.head?.getD sm - stable|))
              i ts (roundTo 1 |det.recent_loads.head?.getD sm - stable|)
              (DBInv_update db i (roundTo 1 |det.recent_loads.head?.getD sm - stable|) h
                (isTenth_roundTo1 _))
            rw [hp] at hpp
            rcases dur with _ | d
            · dsimp only []
              exact DBInv_active (insert_event db2 ts _ _ _ _ _ _) _ _ _ _ hpp
            · dsimp only []
              by_cases hd : d = 0
              · subst hd
                rw [if_pos rfl]
                exact DBInv_active (insert_event db2 ts _ _ _ _ _ _) _ _ _ _ hpp
              · rw [if_neg hd]
                exact DBInv_daily_stats _ _ _ _ _
                  (DBInv_active (insert_event db2 ts _ _ _ _ _ _) _ _ _ _ hpp)

theorem DBInv_startup (db : DB) (h : DBInv db) : DBInv (startup db).1 :=
  DBInv_map db (fun s => { s with is_active := false, active_count := 0 }) (fun s => rfl) h
    (fun s hs => by
      obtain ⟨⟨⟨hm, hM⟩, -, -⟩, hg⟩ := h.2 s hs
      exact ⟨⟨⟨hm, hM⟩, le_refl 0, fun hc => absurd hc (lt_irrefl 0)⟩, hg⟩)

theorem DBInv_setAllInactive (db : DB) (h : DBInv db) : DBInv (setAllInactive db) :=
  DBInv_map db (fun s => { s with is_active := false, active_count := 0 }) (fun s => rfl) h
    (fun s hs => by
      obtain ⟨⟨⟨hm, hM⟩, -, -⟩, hg⟩ := h.2 s hs
      exact ⟨⟨⟨hm, hM⟩, le_refl 0, fun hc => absurd hc (lt_irrefl 0)⟩, hg⟩)

theorem DBInv_restore (db : DB) (saved : List SavedLabel) (h : DBInv db) :
    DBInv (restore_user_labels db saved) :=
  DBInv_map db _
    (fun s => by cases hc : restoreChoice saved s <;> simp [hc]) h
    (fun s hs => by
      obtain ⟨⟨⟨hm, hM⟩, hac, hai⟩, hg⟩ := h.2 s hs
      cases hc : restoreChoice saved s <;> simp only [hc] <;>
        exact ⟨⟨⟨hm, hM⟩, hac, hai⟩, hg⟩)

theorem DBInv_replay_fold (today : ℤ) :
    ∀ (l : List SampleRow) (st : Detector × DB × ℕ), DBInv st.2.1 →
      DBInv (l.foldl (replayStep today) st).2.1 := by
  intro l
  induction l with
  | nil => intro st h; exact h
  | cons x xs ih =>
    intro st h
    rw [List.foldl_cons]
    exact ih _ (DBInv_detect_edge _ _ _ _ _ _ _ h)

theorem DBInv_reanalyze (today : ℤ) (det : Detector) (db : DB) :
    DBInv (reanalyze today det db).2.1 := by
  have hwipe : DBInv { db with events := [], signatures := [], daily_stats := [] } := by
    simp [DBInv]
  simp only [reanalyze]
  split
  · exact hwipe
  · exact DBInv_restore _ _ (DBInv_setAllInactive _ (DBInv_replay_fold today _ _ hwipe))

theorem merge_active_part (db : DB) (keep mrg : ℕ) (db' : DB)
    (h : DBInv db) (hm : merge_signatures db keep mrg = MergeResult.ok db') :
    ∀ s ∈ db'.signatures, 0 ≤ s.active_count ∧ (0 < s.active_count → s.is_active = true) := by
  intro s' hs'
  unfold merge_signatures at hm
  rcases hke : sigById db keep with _ | k
  · rw [hke] at hm
    exact absurd hm (by simp)
  · rw [hke] at hm
    rcases hme : sigById db mrg with _ | m
    · rw [hme] at hm
      exact absurd hm (by simp)
    · rw [hme] at hm
      dsimp only [] at hm
      by_cases hov : keep ≠ mrg ∧ (db.daily_stats.any (fun r =>
          r.signature_id == mrg && db.daily_stats.any (fun r2 =>
            r2.signature_id == keep && r2.date == r.date))) = true
      · rw [if_pos hov] at hm
        exact absurd hm (by simp)
      · rw [if_neg hov] at hm
        injection hm with hX
        rw [← hX] at hs'
        have hs'' := List.mem_of_mem_filter hs'
        obtain ⟨t, ht, rfl⟩ := List.mem_map.mp hs''
        obtain ⟨⟨-, hac, hai⟩, -⟩ := h.2 t ht
        by_cases hid : t.id = keep
        · rw [if_pos hid]
          exact ⟨hac, hai⟩
        · rw [if_neg hid]
          exact ⟨hac, hai⟩

/-- C6 (amended): the specification invariant `power_min ≤ power_avg ≤
power_max`, `active_count ≥ 0`, `active_count > 0 → is_active` — carried
inductively together with id uniqueness/counter bounds and the fact that the
power fields lie on the 0.1 W grid (`DBInv`) — is preserved by
`create_signature` (for a one-decimal delta), `update_signature`,
`_update_signature_active_state`, startup, and every `detect_edge` call, and
holds unconditionally after a full `reanalyze`; `merge_signatures`, however,
preserves only the active-count part (the counterexample shows the power
part can break, as it never updates power_min/power_max). -/
theorem C6_invariant_amended :
    (∀ (db : DB) (pd : ℚ) (leg : Leg), DBInv db → isTenth pd →
        DBInv (create_signature db pd leg).2) ∧
    (∀ (db : DB) (sid : ℕ) (pd : ℚ), DBInv db → isTenth pd →
        DBInv (update_signature db sid pd)) ∧
    (∀ (db : DB) (sid : ℕ) (et : EvType) (ts : ℤ) (pd : ℚ), DBInv db →
        DBInv (update_signature_active_state db sid et ts pd)) ∧
    (∀ db : DB, DBInv db → DBInv (startup db).1) ∧
    (∀ (today : ℤ) (det : Detector) (db : DB) (sm : ℚ) (l1 l2 : Option ℚ) (ts : ℤ),
        DBInv db → DBInv (detect_edge today det db sm l1 l2 ts).2.1) ∧
    (∀ (today : ℤ) (det : Detector) (db : DB), DBInv (reanalyze today det db).2.1) ∧
    (∀ (db : DB) (keep mrg : ℕ) (db' : DB), DBInv db →
        merge_signatures db keep mrg = MergeResult.ok db' →
        ∀ s ∈ db'.signatures, 0 ≤ s.active_count ∧ (0 < s.active_count → s.is_active = true)) :=
  ⟨fun db pd leg h hp => DBInv_create db pd leg h hp,
   fun db sid pd h hp => DBInv_update db sid pd h hp,
   fun db sid et ts pd h => DBInv_active db sid et ts pd h,
   fun db h => DBInv_startup db h,
   fun today det db sm l1 l2 ts h => DBInv_detect_edge today det db sm l1 l2 ts h,
   fun today det db => DBInv_reanalyze today det db,
   fun db keep mrg db' h hm => merge_active_part db keep mrg db' h hm⟩

theorem C6_witness :
    DBInv emptyDB ∧ isTenth (100 : ℚ) ∧ DBInv (create_signature emptyDB 100 Leg.both).2 :=
  have h0 : DBInv emptyDB := by simp [DBInv, emptyDB]
  have h1 : isTenth (100 : ℚ) := by norm_num [isTenth]
  ⟨h0, h1, C6_invariant_amended.1 emptyDB 100 Leg.both h0 h1⟩


/-! ### C9: determinism of reanalyze under id-counter shifts -/

theorem scan_map_payload {α β β' γ : Type} [LinearOrder γ] (payload : α → β) (h' : β → β')
    (score : α → γ) (qual : α → Bool) (l : List α) :
    ∀ acc : Option (β × γ),
      l.foldl (scanStep (fun x => h' (payload x)) score qual)
          (acc.map (fun p => (h' p.1, p.2))) =
        (l.foldl (scanStep payload score qual) acc).map (fun p => (h' p.1, p.2)) := by
  induction l with
  | nil => intro acc; rfl
  | cons x xs ih =>
    intro acc
    rw [List.foldl_cons, List.foldl_cons, ← ih]
    congr 1
    cases acc with
    | none =>
      by_cases hq : qual x = true
      · simp [scanStep, hq]
      · simp [scanStep, hq]
    | some p =>
      obtain ⟨pb, pc⟩ := p
      by_cases hq : qual x = true ∧ score x < pc
      · rw [Option.map_some']
        rw [scanStep_some, scanStep_some, if_pos hq, if_pos hq]
        rfl
      · rw [Option.map_some']
        rw [scanStep_some, scanStep_some, if_neg hq, if_neg hq]
        rfl

theorem sigById_shift (a b : ℕ) (db : DB) (i : ℕ) :
    sigById (shiftDB a b db) (i + a) = (sigById db i).map (shiftSig a) := by
  show (db.signatures.map (shiftSig a)).find? (fun s => s.id == i + a) = _
  rw [List.find?_map]
  have hp : ((fun s : Signature => s.id == i + a) ∘ shiftSig a) =
      fun s : Signature => s.id == i := by
    funext s
    by_cases h : s.id = i
    · simp [shiftSig, h]
    · have h' : ¬ (s.id + a = i + a) := by omega
      simp [shiftSig, h, h']
  rw [hp]
  rfl

theorem find_matching_shift (a b : ℕ) (db : DB) (pd : ℚ) :
    find_matching_signature (shiftDB a b db) pd =
      (find_matching_signature db pd).map (fun i => i + a) := by
  unfold find_matching_signature
  have h1 : ∀ (acc : Option (ℕ × ℚ)) (s : Signature),
      findStep pd acc (shiftSig a s) =
        scanStep (fun s : Signature => s.id + a) (fun s => |pd - s.power_avg|)
          (fun s => decide (Qual pd s)) acc s := by
    intro acc s
    rw [findStep_eq_scan]
    rfl
  have hL : (shiftDB a b db).signatures.foldl (findStep pd) none =
      (db.signatures.foldl (findStep pd) none).map (fun p => (p.1 + a, p.2)) := by
    show (db.signatures.map (shiftSig a)).foldl (findStep pd) none = _
    rw [List.foldl_map, foldl_congr_fun h1, foldl_congr_fun (findStep_eq_scan pd)]
    exact scan_map_payload Signature.id (fun i => i + a) _ _ db.signatures none
  rw [hL]
  rcases db.signatures.foldl (findStep pd) none with _ | p
  · rfl
  · rfl

theorem create_shift (a b : ℕ) (db : DB) (pd : ℚ) (leg : Leg) :
    create_signature (shiftDB a b db) pd leg =
      ((create_signature db pd leg).1 + a, shiftDB a b (create_signature db pd leg).2) := by
  unfold create_signature shiftDB
  simp [shiftSig]
  omega

theorem update_shift (a b : ℕ) (db : DB) (i : ℕ) (pd : ℚ) :
    update_signature (shiftDB a b db) (i + a) pd = shiftDB a b (update_signature db i pd) := by
  unfold update_signature shiftDB
  simp only [List.map_map]
  congr 1
  apply List.map_congr_left
  intro s hs
  by_cases h : s.id = i
  · simp [Function.comp, shiftSig, h]
  · have h' : ¬ (s.id + a = i + a) := by omega
    simp [Function.comp, shiftSig, h, h']

theorem avg_duration_shift (a b : ℕ) (db : DB) (i : ℕ) (d : ℤ) :
    update_avg_duration (shiftDB a b db) (i + a) d =
      shiftDB a b (update_avg_duration db i d) := by
  unfold update_avg_duration shiftDB
  simp only [List.map_map]
  congr 1
  apply List.map_congr_left
  intro s hs
  by_cases h : s.id = i
  · simp [Function.comp, shiftSig, h]
  · have h' : ¬ (s.id + a = i + a) := by omega
    simp [Function.comp, shiftSig, h, h']
theorem pairCandidates_shift (a b : ℕ) (db : DB) (ts : ℤ) :
    pairCandidates (shiftDB a b db) ts = (pairCandidates db ts).map (shiftCand b) := by
  simp only [pairCandidates]
  rw [show (shiftDB a b db).events = db.events.map (shiftEvent a b) from rfl]
  rw [List.filter_map]
  rw [show ((fun e : LoadEvent => decide (e.event_type = EvType.on ∧ e.duration = none ∧
        ts - MAX_PAIRING_HOURS * 3600 ≤ e.timestamp)) ∘ shiftEvent a b) =
      (fun e : LoadEvent => decide (e.event_type = EvType.on ∧ e.duration = none ∧
        ts - MAX_PAIRING_HOURS * 3600 ≤ e.timestamp)) from rfl]
  rw [sortByKey_map LoadEvent.timestamp LoadEvent.timestamp (shiftEvent a b) (fun x => rfl)]
  rw [List.filterMap_map, List.map_filterMap]
  apply List.filterMap_congr
  intro e he
  show (sigById (shiftDB a b db) (shiftEvent a b e).signature_id).map _ = _
  rw [show (shiftEvent a b e).signature_id = e.signature_id + a from rfl]
  rw [sigById_shift]
  rcases sigById db e.signature_id with _ | s
  · rfl
  · rfl
theorem pair_fold_shift (b : ℕ) (op : ℚ) (l : List Cand) :
    (l.map (shiftCand b)).foldl (pairStep op) none =
      (l.foldl (pairStep op) none).map (fun p => ((p.1.1 + b, p.1.2), p.2)) := by
  rw [List.foldl_map]
  have h1 : ∀ (acc : Option ((ℕ × ℤ) × ℚ)) (c : Cand),
      pairStep op acc (shiftCand b c) =
        scanStep (fun c : Cand => (c.id + b, c.ts)) (pairScore op) (fun _ => true) acc c := by
    intro acc c
    rw [pairStep_eq_scan]
    rfl
  rw [foldl_congr_fun h1, foldl_congr_fun (pairStep_eq_scan op)]
  exact scan_map_payload (fun c : Cand => (c.id, c.ts)) (fun r => (r.1 + b, r.2))
    (pairScore op) (fun _ => true) l none

theorem pair_shift (a b : ℕ) (db : DB) (sid : ℕ) (ts : ℤ) (p : ℚ) :
    pair_on_off_event (shiftDB a b db) (sid + a) ts p =
      (shiftDB a b (pair_on_off_event db sid ts p).1, (pair_on_off_event db sid ts p).2) := by
  simp only [pair_on_off_event]
  have hop : (if p ≤ 0 then
        ((sigById (shiftDB a b db) (sid + a)).map Signature.power_avg).getD 0 else p) =
      (if p ≤ 0 then ((sigById db sid).map Signature.power_avg).getD 0 else p) := by
    rw [sigById_shift]
    rcases sigById db sid with _ | s
    · rfl
    · rfl
  rw [hop, pairCandidates_shift, pair_fold_shift]
  rcases hfold : (pairCandidates db ts).foldl
      (pairStep (if p ≤ 0 then ((sigById db sid).map Signature.power_avg).getD 0 else p))
      none with _ | pr
  · rfl
  · obtain ⟨⟨rid, rts⟩, bd⟩ := pr
    rw [Option.map_some']
    dsimp only []
    by_cases hacc : max ((if p ≤ 0 then
        ((sigById db sid).map Signature.power_avg).getD 0 else p) * (4/10)) 40 < bd
    · rw [if_pos hacc, if_pos hacc]
    · rw [if_neg hacc, if_neg hacc]
      have hev : (shiftDB a b db).events.map (fun e =>
            if e.id = rid + b then { e with duration := some (ts - rts) } else e) =
          (db.events.map (fun e =>
            if e.id = rid then { e with duration := some (ts - rts) } else e)).map
              (shiftEvent a b) := by
        show (db.events.map (shiftEvent a b)).map _ = _
        rw [List.map_map, List.map_map]
        apply List.map_congr_left
        intro e he
        by_cases h : e.id = rid
        · simp [Function.comp, shiftEvent, h]
        · have h' : ¬ (e.id + b = rid + b) := by omega
          simp [Function.comp, shiftEvent, h, h']
      rw [hev]
      exact congrArg (fun z => (z, some (ts - rts)))
        (avg_duration_shift a b { db with events := db.events.map (fun e => if e.id = rid then { e with duration := some (ts - rts) } else e) } sid (ts - rts))
theorem cond_map_shift (a sid : ℕ) (f g : Signature → Signature)
    (hfg : ∀ s, f (shiftSig a s) = shiftSig a (g s)) (l : List Signature) :
    (l.map (shiftSig a)).map (fun s => if s.id = sid + a then f s else s) =
      (l.map (fun s => if s.id = sid then g s else s)).map (shiftSig a) := by
  rw [List.map_map, List.map_map]
  apply List.map_congr_left
  intro s hs
  show (if (shiftSig a s).id = sid + a then f (shiftSig a s) else shiftSig a s) =
    shiftSig a (if s.id = sid then g s else s)
  rw [show (shiftSig a s).id = s.id + a from rfl]
  by_cases h : s.id = sid
  · rw [if_pos (show s.id + a = sid + a by omega), if_pos h, hfg]
  · rw [if_neg (show ¬ s.id + a = sid + a by omega), if_neg h]

theorem beq_add_right (x y c : ℕ) : (x + c == y + c) = (x == y) := by
  rcases hxy : x == y with _ | _
  · have hne : ¬ x = y := by simpa using hxy
    have hne' : ¬ x + c = y + c := by omega
    simpa using hne'
  · have heq : x = y := by simpa using hxy
    simp [heq]

theorem find_sid_shift (a : ℕ) (sid : ℕ) (l : List Signature) :
    (l.map (shiftSig a)).find? (fun s => s.id == sid + a && s.is_active) =
      (l.find? (fun s => s.id == sid && s.is_active)).map (shiftSig a) := by
  rw [List.find?_map]
  congr 1
  congr 1
  funext s
  show (s.id + a == sid + a && s.is_active) = (s.id == sid && s.is_active)
  rw [beq_add_right]

theorem find_active_shift (a : ℕ) (pd : ℚ) (l : List Signature) :
    (l.map (shiftSig a)).find? (fun s => s.is_active && decide (|pd - s.power_avg| ≤
        max (s.power_avg * SIGNATURE_TOLERANCE) EDGE_THRESHOLD)) =
      (l.find? (fun s => s.is_active && decide (|pd - s.power_avg| ≤
        max (s.power_avg * SIGNATURE_TOLERANCE) EDGE_THRESHOLD))).map (shiftSig a) := by
  rw [List.find?_map]
  rfl
theorem active_fb_shift (a b : ℕ) (db : DB) (pd : ℚ) :
    (if 0 < pd then
      match (db.signatures.map (shiftSig a)).find? (fun s =>
          s.is_active && decide (|pd - s.power_avg| ≤
            max (s.power_avg * SIGNATURE_TOLERANCE) EDGE_THRESHOLD)) with
      | some t =>
        { shiftDB a b db with signatures := (db.signatures.map (shiftSig a)).map (fun s =>
            if s.id = t.id then
              if (if t.active_count = 0 then 1 else t.active_count) - 1 ≤ 0 then
                { s with is_active := false, active_count := 0 }
              else { s with active_count :=
                (if t.active_count = 0 then 1 else t.active_count) - 1 }
            else s) }
      | none => shiftDB a b db
    else shiftDB a b db) =
    shiftDB a b (if 0 < pd then
      match db.signatures.find? (fun s =>
          s.is_active && decide (|pd - s.power_avg| ≤
            max (s.power_avg * SIGNATURE_TOLERANCE) EDGE_THRESHOLD)) with
      | some t =>
        { db with signatures := db.signatures.map (fun s =>
            if s.id = t.id then
              if (if t.active_count = 0 then 1 else t.active_count) - 1 ≤ 0 then
                { s with is_active := false, active_count := 0 }
              else { s with active_count :=
                (if t.active_count = 0 then 1 else t.active_count) - 1 }
            else s) }
      | none => db
    else db) := by
  by_cases hpd : 0 < pd
  · rw [if_pos hpd, if_pos hpd]
    rw [find_active_shift]
    rcases h1 : db.signatures.find? (fun s =>
        s.is_active && decide (|pd - s.power_avg| ≤
          max (s.power_avg * SIGNATURE_TOLERANCE) EDGE_THRESHOLD)) with _ | t0
    · try rw [h1]
      rw [Option.map_none']
    · try rw [h1]
      rw [Option.map_some']
      dsimp only []
      rw [show (shiftSig a t0).id = t0.id + a from rfl,
        show (shiftSig a t0).active_count = t0.active_count from rfl]
      have hfg : ∀ s : Signature,
          (fun s : Signature => if (if t0.active_count = 0 then 1 else t0.active_count) - 1 ≤ 0 then { s with is_active := false, active_count := 0 } else { s with active_count := (if t0.active_count = 0 then 1 else t0.active_count) - 1 }) (shiftSig a s) =
            shiftSig a ((fun s : Signature => if (if t0.active_count = 0 then 1 else t0.active_count) - 1 ≤ 0 then { s with is_active := false, active_count := 0 } else { s with active_count := (if t0.active_count = 0 then 1 else t0.active_count) - 1 }) s) := by
        intro s
        by_cases hnc : (if t0.active_count = 0 then 1 else t0.active_count) - 1 ≤ 0
        · simp [hnc, shiftSig]
        · simp [hnc, shiftSig]
      exact congrArg (fun l => { shiftDB a b db with signatures := l })
        (cond_map_shift a t0.id
          (fun s => if (if t0.active_count = 0 then 1 else t0.active_count) - 1 ≤ 0 then { s with is_active := false, active_count := 0 } else { s with active_count := (if t0.active_count = 0 then 1 else t0.active_count) - 1 })
          (fun s => if (if t0.active_count = 0 then 1 else t0.active_count) - 1 ≤ 0 then { s with is_active := false, active_count := 0 } else { s with active_count := (if t0.active_count = 0 then 1 else t0.active_count) - 1 })
          hfg db.signatures)
  · rw [if_neg hpd, if_neg hpd]

theorem active_off_shift (a b : ℕ) (db : DB) (sid : ℕ) (fb fb0 : DB)
    (hfb : fb = shiftDB a b fb0) :
    (match (db.signatures.map (shiftSig a)).find? (fun s => s.id == sid + a && s.is_active) with
     | some s0 =>
       if 0 < s0.active_count then
         { shiftDB a b db with signatures := (db.signatures.map (shiftSig a)).map (fun s =>
             if s.id = sid + a then
               if s0.active_count - 1 ≤ 0 then { s with is_active := false, active_count := 0 }
               else { s with active_count := s0.active_count - 1 }
             else s) }
       else fb
     | none => fb) =
    shiftDB a b (match db.signatures.find? (fun s => s.id == sid && s.is_active) with
     | some s0 =>
       if 0 < s0.active_count then
         { db with signatures := db.signatures.map (fun s =>
             if s.id = sid then
               if s0.active_count - 1 ≤ 0 then { s with is_active := false, active_count := 0 }
               else { s with active_count := s0.active_count - 1 }
             else s) }
       else fb0
     | none => fb0) := by
  rw [find_sid_shift]
  rcases h0 : db.signatures.find? (fun s => s.id == sid && s.is_active) with _ | s0
  · try rw [h0]
    rw [Option.map_none']
    exact hfb
  · try rw [h0]
    rw [Option.map_some']
    dsimp only []
    rw [show (shiftSig a s0).active_count = s0.active_count from rfl]
    by_cases hpos : 0 < s0.active_count
    · rw [if_pos hpos, if_pos hpos]
      have hfg : ∀ s : Signature,
          (fun s : Signature => if s0.active_count - 1 ≤ 0 then { s with is_active := false, active_count := 0 } else { s with active_count := s0.active_count - 1 }) (shiftSig a s) =
            shiftSig a ((fun s : Signature => if s0.active_count - 1 ≤ 0 then { s with is_active := false, active_count := 0 } else { s with active_count := s0.active_count - 1 }) s) := by
        intro s
        by_cases hnc : s0.active_count - 1 ≤ 0
        · simp [hnc, shiftSig]
        · simp [hnc, shiftSig]
      exact congrArg (fun l => { shiftDB a b db with signatures := l })
        (cond_map_shift a sid
          (fun s => if s0.active_count - 1 ≤ 0 then { s with is_active := false, active_count := 0 } else { s with active_count := s0.active_count - 1 })
          (fun s => if s0.active_count - 1 ≤ 0 then { s with is_active := false, active_count := 0 } else { s with active_count := s0.active_count - 1 })
          hfg db.signatures)
    · rw [if_neg hpos, if_neg hpos]
      exact hfb

theorem active_shift (a b : ℕ) (db : DB) (sid : ℕ) (et : EvType) (ts : ℤ) (pd : ℚ) :
    update_signature_active_state (shiftDB a b db) (sid + a) et ts pd =
      shiftDB a b (update_signature_active_state db sid et ts pd) := by
  cases et
  · have hfg : ∀ s : Signature,
        (fun s : Signature => { s with is_active := true, active_count := s.active_count + 1, last_on_time := some ts }) (shiftSig a s) =
          shiftSig a ((fun s : Signature => { s with is_active := true, active_count := s.active_count + 1, last_on_time := some ts }) s) := by
      intro s
      simp [shiftSig]
    exact congrArg (fun l => { shiftDB a b db with signatures := l })
      (cond_map_shift a sid
        (fun s => { s with is_active := true, active_count := s.active_count + 1, last_on_time := some ts })
        (fun s => { s with is_active := true, active_count := s.active_count + 1, last_on_time := some ts })
        hfg db.signatures)
  · exact active_off_shift a b db sid _ _ (active_fb_shift a b db pd)
theorem insert_shift (a b : ℕ) (db : DB) (ts : ℤ) (et : EvType) (pd : ℚ) (leg : Leg)
    (dur : Option ℤ) (sid : ℕ) (conf : ℚ) :
    insert_event (shiftDB a b db) ts et pd leg dur (sid + a) conf =
      shiftDB a b (insert_event db ts et pd leg dur sid conf) := by
  unfold insert_event shiftDB
  simp [shiftEvent]
  omega

theorem label_shift (a b : ℕ) (db : DB) (sid : ℕ) :
    get_signature_label (shiftDB a b db) (sid + a) = get_signature_label db sid := by
  unfold get_signature_label
  rw [sigById_shift]
  rcases sigById db sid with _ | s
  · rfl
  · rfl

theorem daily_cycles_shift (a b : ℕ) (db : DB) (sid : ℕ) :
    update_daily_cycles (shiftDB a b db) (sid + a) = shiftDB a b (update_daily_cycles db sid) := by
  simp only [update_daily_cycles]
  have hrows : (shiftDB a b db).daily_stats.filter (fun r => r.signature_id == sid + a) =
      (db.daily_stats.filter (fun r => r.signature_id == sid)).map (shiftStat a) := by
    show (db.daily_stats.map (shiftStat a)).filter _ = _
    rw [List.filter_map]
    congr 1
    congr 1
    funext r
    show ((r.signature_id + a == sid + a) : Bool) = (r.signature_id == sid)
    rw [beq_add_right]
  rw [hrows]
  by_cases hnil : db.daily_stats.filter (fun r => r.signature_id == sid) = []
  · rw [hnil, List.map_nil, if_pos rfl, if_pos rfl]
  · have hnil' : (db.daily_stats.filter (fun r => r.signature_id == sid)).map (shiftStat a) ≠ [] := by
      simpa using hnil
    rw [if_neg hnil', if_neg hnil]
    have havg : ((db.daily_stats.filter (fun r => r.signature_id == sid)).map
        (shiftStat a)).map (fun r => (r.cycles : ℚ)) =
        (db.daily_stats.filter (fun r => r.signature_id == sid)).map (fun r => (r.cycles : ℚ)) := by
      rw [List.map_map]
      rfl
    rw [havg, List.length_map]
    by_cases hz : ((db.daily_stats.filter (fun r => r.signature_id == sid)).map
        (fun r => (r.cycles : ℚ))).sum /
        ((db.daily_stats.filter (fun r => r.signature_id == sid)).length : ℚ) = 0
    · rw [if_pos hz, if_pos hz]
    · rw [if_neg hz, if_neg hz]
      have hfg : ∀ s : Signature,
          (fun s : Signature => { s with daily_cycles := roundTo 1 (((db.daily_stats.filter (fun r => r.signature_id == sid)).map (fun r => (r.cycles : ℚ))).sum / ((db.daily_stats.filter (fun r => r.signature_id == sid)).length : ℚ)) }) (shiftSig a s) =
            shiftSig a ((fun s : Signature => { s with daily_cycles := roundTo 1 (((db.daily_stats.filter (fun r => r.signature_id == sid)).map (fun r => (r.cycles : ℚ))).sum / ((db.daily_stats.filter (fun r => r.signature_id == sid)).length : ℚ)) }) s) := by
        intro s
        simp [shiftSig]
      exact congrArg (fun l => { shiftDB a b db with signatures := l })
        (cond_map_shift a sid
          (fun s : Signature => { s with daily_cycles := roundTo 1 (((db.daily_stats.filter (fun r => r.signature_id == sid)).map (fun r => (r.cycles : ℚ))).sum / ((db.daily_stats.filter (fun r => r.signature_id == sid)).length : ℚ)) })
          (fun s : Signature => { s with daily_cycles := roundTo 1 (((db.daily_stats.filter (fun r => r.signature_id == sid)).map (fun r => (r.cycles : ℚ))).sum / ((db.daily_stats.filter (fun r => r.signature_id == sid)).length : ℚ)) })
          hfg db.signatures)
theorem daily_stats_shift (a b : ℕ) (today : ℤ) (db : DB) (sid : ℕ) (pd : ℚ) (d : ℤ) :
    update_daily_stats today (shiftDB a b db) (sid + a) pd d =
      shiftDB a b (update_daily_stats today db sid pd d) := by
  simp only [update_daily_stats]
  have hany : ((shiftDB a b db).daily_stats.any (fun r =>
      r.date == today && r.signature_id == sid + a)) =
      (db.daily_stats.any (fun r => r.date == today && r.signature_id == sid)) := by
    show (db.daily_stats.map (shiftStat a)).any _ = _
    rw [List.any_map]
    congr 1
    funext r
    show (r.date == today && (r.signature_id + a == sid + a)) =
      (r.date == today && (r.signature_id == sid))
    rw [beq_add_right]
  rw [hany]
  by_cases hc : (db.daily_stats.any (fun r => r.date == today && r.signature_id == sid)) = true
  · rw [if_pos hc, if_pos hc]
    have hstats : (shiftDB a b db).daily_stats.map (fun r =>
        if r.date = today ∧ r.signature_id = sid + a then { r with cycles := r.cycles + 1, total_duration := r.total_duration + d, energy_kwh := r.energy_kwh + roundTo 4 (pd * d / 3600 / 1000) } else r) =
        (db.daily_stats.map (fun r =>
          if r.date = today ∧ r.signature_id = sid then { r with cycles := r.cycles + 1, total_duration := r.total_duration + d, energy_kwh := r.energy_kwh + roundTo 4 (pd * d / 3600 / 1000) } else r)).map (shiftStat a) := by
      show (db.daily_stats.map (shiftStat a)).map _ = _
      rw [List.map_map, List.map_map]
      apply List.map_congr_left
      intro r hr
      by_cases h : r.date = today ∧ r.signature_id = sid
      · have h' : r.date = today ∧ r.signature_id + a = sid + a := ⟨h.1, by omega⟩
        simp [Function.comp, shiftStat, h, h']
      · have h' : ¬ (r.date = today ∧ r.signature_id + a = sid + a) := by
          rintro ⟨h1, h2⟩
          exact h ⟨h1, by omega⟩
        simp [Function.comp, shiftStat, h, h']
    rw [hstats]
    exact daily_cycles_shift a b { db with daily_stats := db.daily_stats.map (fun r => if r.date = today ∧ r.signature_id = sid then { r with cycles := r.cycles + 1, total_duration := r.total_duration + d, energy_kwh := r.energy_kwh + roundTo 4 (pd * d / 3600 / 1000) } else r) } sid
  · rw [if_neg hc, if_neg hc]
    have happ : (shiftDB a b db).daily_stats ++ [{ date := today, signature_id := sid + a, cycles := 1, total_duration := d, energy_kwh := roundTo 4 (pd * d / 3600 / 1000) }] =
        (db.daily_stats ++ [({ date := today, signature_id := sid, cycles := 1, total_duration := d, energy_kwh := roundTo 4 (pd * d / 3600 / 1000) } : DailyStat)]).map (shiftStat a) := by
      rw [List.map_append]
      rfl
    rw [happ]
    exact daily_cycles_shift a b { db with daily_stats := db.daily_stats ++ [({ date := today, signature_id := sid, cycles := 1, total_duration := d, energy_kwh := roundTo 4 (pd * d / 3600 / 1000) } : DailyStat)] } sid
set_option maxHeartbeats 2000000 in
theorem detect_edge_shift (a b : ℕ) (today : ℤ) (det : Detector) (db : DB) (sm : ℚ)
    (l1 l2 : Option ℚ) (ts : ℤ) :
    detect_edge today det (shiftDB a b db) sm l1 l2 ts =
      ((detect_edge today det db sm l1 l2 ts).1,
       shiftDB a b (detect_edge today det db sm l1 l2 ts).2.1,
       (detect_edge today det db sm l1 l2 ts).2.2.map (shiftOut a)) := by
  rcases hsl : det.stable_level with _ | stable
  · simp only [detect_edge, hsl]
    rfl
  · simp only [detect_edge, hsl]
    by_cases h1 : |det.recent_loads.head?.getD sm - stable| < EDGE_THRESHOLD
    · repeat rw [if_pos h1]
      rfl
    · repeat rw [if_neg h1]
      by_cases h2 : ts - det.last_event_time < DEBOUNCE_SECONDS
      · repeat rw [if_pos h2]
        rfl
      · repeat rw [if_neg h2]
        rw [find_matching_shift]
        by_cases h3 : 0 < det.recent_loads.head?.getD sm - stable
        · repeat rw [if_pos h3]
          rcases hf : find_matching_signature db
              (roundTo 1 |det.recent_loads.head?.getD sm - stable|) with _ | i
          · try rw [hf]
            rw [Option.map_none']
            dsimp only []
            rw [create_shift]
            rcases hcr : create_signature db
                (roundTo 1 |det.recent_loads.head?.getD sm - stable|)
                (if |l1.getD 0 - l2.getD 0| < 20 then Leg.both
                 else if l2.getD 0 < l1.getD 0 then Leg.l1 else Leg.l2) with ⟨sid1, db1⟩
            try rw [hcr]
            dsimp only []
            rw [insert_shift, active_shift, label_shift]
            rfl
          · try rw [hf]
            rw [Option.map_some']
            dsimp only []
            rw [update_shift, insert_shift, active_shift, label_shift]
            rfl
        · repeat rw [if_neg h3]
          rcases hf : find_matching_signature db
              (roundTo 1 |det.recent_loads.head?.getD sm - stable|) with _ | i
          · try rw [hf]
            rw [Option.map_none']
            dsimp only []
            rw [create_shift]
            rcases hcr : create_signature db
                (roundTo 1 |det.recent_loads.head?.getD sm - stable|)
                (if |l1.getD 0 - l2.getD 0| < 20 then Leg.both
                 else if l2.getD 0 < l1.getD 0 then Leg.l1 else Leg.l2) with ⟨sid1, db1⟩
            try rw [hcr]
            dsimp only []
            rw [pair_shift]
            rcases hp : pair_on_off_event db1 sid1 ts
                (roundTo 1 |det.recent_loads.head?.getD sm - stable|) with ⟨db2, dur⟩
            try rw [hp]
            dsimp only []
            rcases dur with _ | dd
            · dsimp only []
              rw [insert_shift, active_shift, label_shift]
              rfl
            · dsimp only []
              by_cases hd : dd = 0
              · subst hd
                rw [if_pos rfl, if_pos rfl]
                rw [insert_shift, active_shift, label_shift]
                rfl
              · rw [if_neg hd, if_neg hd]
                rw [insert_shift, active_shift, daily_stats_shift, label_shift]
                rfl
          · try rw [hf]
            rw [Option.map_some']
            dsimp only []
            rw [update_shift, pair_shift]
            rcases hp : pair_on_off_event
                (update_signature db i (roundTo 1 |det.recent_loads.head?.getD sm - stable|))
                i ts (roundTo 1 |det.recent_loads.head?.getD sm - stable|) with ⟨db2, dur⟩
            try rw [hp]
            dsimp only []
            rcases dur with _ | dd
            · dsimp only []
              rw [insert_shift, active_shift, label_shift]
              rfl
            · dsimp only []
              by_cases hd : dd = 0
              · subst hd
                rw [if_pos rfl, if_pos rfl]
                rw [insert_shift, active_shift, label_shift]
                rfl
              · rw [if_neg hd, if_neg hd]
                rw [insert_shift, active_shift, daily_stats_shift, label_shift]
                rfl
theorem samples_update (db : DB) (sid : ℕ) (pd : ℚ) :
    (update_signature db sid pd).samples = db.samples := rfl

theorem samples_create (db : DB) (pd : ℚ) (leg : Leg) :
    (create_signature db pd leg).2.samples = db.samples := rfl

theorem samples_avg_duration (db : DB) (sid : ℕ) (d : ℤ) :
    (update_avg_duration db sid d).samples = db.samples := rfl

theorem samples_insert (db : DB) (ts : ℤ) (et : EvType) (pd : ℚ) (leg : Leg)
    (dur : Option ℤ) (sid : ℕ) (conf : ℚ) :
    (insert_event db ts et pd leg dur sid conf).samples = db.samples := rfl

theorem samples_pair (db : DB) (sid : ℕ) (ts : ℤ) (p : ℚ) :
    (pair_on_off_event db sid ts p).1.samples = db.samples := by
  simp only [pair_on_off_event]
  repeat' split
  all_goals rfl

theorem samples_active (db : DB) (sid : ℕ) (et : EvType) (ts : ℤ) (pd : ℚ) :
    (update_signature_active_state db sid et ts pd).samples = db.samples := by
  cases et
  · rfl
  · simp only [update_signature_active_state]
    repeat' split
    all_goals rfl

theorem samples_daily_cycles (db : DB) (sid : ℕ) :
    (update_daily_cycles db sid).samples = db.samples := by
  simp only [update_daily_cycles]
  repeat' split
  all_goals rfl

theorem samples_daily_stats (today : ℤ) (db : DB) (sid : ℕ) (pd : ℚ) (d : ℤ) :
    (update_daily_stats today db sid pd d).samples = db.samples := by
  unfold update_daily_stats
  exact samples_daily_cycles _ _

set_option maxHeartbeats 1000000 in
theorem samples_detect_edge (today : ℤ) (det : Detector) (db : DB) (sm : ℚ)
    (l1 l2 : Option ℚ) (ts : ℤ) :
    (detect_edge today det db sm l1 l2 ts).2.1.samples = db.samples := by
  rcases hsl : det.stable_level with _ | stable
  · simp only [detect_edge, hsl]
  · simp only [detect_edge, hsl]
    by_cases h1 : |det.recent_loads.head?.getD sm - stable| < EDGE_THRESHOLD
    · rw [if_pos h1]
    · rw [if_neg h1]
      by_cases h2 : ts - det.last_event_time < DEBOUNCE_SECONDS
      · rw [if_pos h2]
      · rw [if_neg h2]
        by_cases h3 : 0 < det.recent_loads.head?.getD sm - stable
        · rw [if_pos h3]
          rcases hf : find_matching_signature db
              (roundTo 1 |det.recent_loads.head?.getD sm - stable|) with _ | i
          · try rw [hf]
            dsimp only []
            rcases hcr : create_signature db
                (roundTo 1 |det.recent_loads.head?.getD sm - stable|)
                (if |l1.getD 0 - l2.getD 0| < 20 then Leg.both
                 else if l2.getD 0 < l1.getD 0 then Leg.l1 else Leg.l2) with ⟨sid1, db1⟩
            try rw [hcr]
            dsimp only []
            rw [samples_active, samples_insert]
            have := samples_create db (roundTo 1 |det.recent_loads.head?.getD sm - stable|)
              (if |l1.getD 0 - l2.getD 0| < 20 then Leg.both
               else if l2.getD 0 < l1.getD 0 then Leg.l1 else Leg.l2)
            rw [hcr] at this
            exact this
          · try rw [hf]
            dsimp only []
            rw [samples_active, samples_insert, samples_update]
        · rw [if_neg h3]
          rcases hf : find_matching_signature db
              (roundTo 1 |det.recent_loads.head?.getD sm - stable|) with _ | i
          · try rw [hf]
            dsimp only []
            rcases hcr : create_signature db
                (roundTo 1 |det.recent_loads.head?.getD sm - stable|)
                (if |l1.getD 0 - l2.getD 0| < 20 then Leg.both
                 else if l2.getD 0 < l1.getD 0 then Leg.l1 else Leg.l2) with ⟨sid1, db1⟩
            try rw [hcr]
            dsimp only []
            have hs1 : db1.samples = db.samples := by
              have := samples_create db (roundTo 1 |det.recent_loads.head?.getD sm - stable|)
                (if |l1.getD 0 - l2.getD 0| < 20 then Leg.both
                 else if l2.getD 0 < l1.getD 0 then Leg.l1 else Leg.l2)
              rw [hcr] at this
              exact this
            rcases hp : pair_on_off_event db1 sid1 ts
                (roundTo 1 |det.recent_loads.head?.getD sm - stable|) with ⟨db2, dur⟩
            try rw [hp]
            dsimp only []
            have hs2 : db2.samples = db.samples := by
              have := samples_pair db1 sid1 ts
                (roundTo 1 |det.recent_loads.head?.getD sm - stable|)
              rw [hp] at this
              rw [this, hs1]
            rcases dur with _ | dd
            · dsimp only []
              rw [samples_active, samples_insert, hs2]
            · dsimp only []
              by_cases hd : dd = 0
              · subst hd
                rw [if_pos rfl]
                rw [samples_active, samples_insert, hs2]
              · rw [if_neg hd]
                rw [samples_daily_stats, samples_active, samples_insert, hs2]
          · try rw [hf]
            dsimp only []
            rcases hp : pair_on_off_event
                (update_signature db i (roundTo 1 |det.recent_loads.head?.getD sm - stable|))
                i ts (roundTo 1 |det.recent_loads.head?.getD sm - stable|) with ⟨db2, dur⟩
            try rw [hp]
            dsimp only []
            have hs2 : db2.samples = db.samples := by
              have := samples_pair
                (update_signature db i (roundTo 1 |det.recent_loads.head?.getD sm - stable|))
                i ts (roundTo 1 |det.recent_loads.head?.getD sm - stable|)
              rw [hp] at this
              exact this
            rcases dur with _ | dd
            · dsimp only []
              rw [samples_active, samples_insert, hs2]
            · dsimp only []
              by_cases hd : dd = 0
              · subst hd
                rw [if_pos rfl]
                rw [samples_active, samples_insert, hs2]
              · rw [if_neg hd]
                rw [samples_daily_stats, samples_active, samples_insert, hs2]
theorem replayStep_shift (a b : ℕ) (today : ℤ) (st : Detector × DB × ℕ) (x : SampleRow) :
    replayStep today (st.1, shiftDB a b st.2.1, st.2.2) x =
      ((replayStep today st x).1, shiftDB a b (replayStep today st x).2.1,
       (replayStep today st x).2.2) := by
  obtain ⟨d, db, c⟩ := st
  simp only [replayStep]
  rw [detect_edge_shift]
  dsimp only []
  rw [Option.isSome_map']

theorem replay_fold_shift (a b : ℕ) (today : ℤ) (l : List SampleRow) :
    ∀ (st : Detector × DB × ℕ),
      l.foldl (replayStep today) (st.1, shiftDB a b st.2.1, st.2.2) =
        ((l.foldl (replayStep today) st).1,
         shiftDB a b (l.foldl (replayStep today) st).2.1,
         (l.foldl (replayStep today) st).2.2) := by
  induction l with
  | nil => intro st; rfl
  | cons x xs ih =>
    intro st
    rw [List.foldl_cons, List.foldl_cons, replayStep_shift]
    exact ih (replayStep today st x)

theorem samples_replay_fold (today : ℤ) :
    ∀ (l : List SampleRow) (st : Detector × DB × ℕ),
      (l.foldl (replayStep today) st).2.1.samples = st.2.1.samples := by
  intro l
  induction l with
  | nil => intro st; rfl
  | cons x xs ih =>
    intro st
    rw [List.foldl_cons, ih]
    exact samples_detect_edge _ _ _ _ _ _ _

theorem samples_reanalyze (today : ℤ) (det : Detector) (db : DB) :
    (reanalyze today det db).2.1.samples = db.samples := by
  simp only [reanalyze]
  split
  · rfl
  · show (restore_user_labels (setAllInactive _) _).samples = db.samples
    rw [show ∀ (dbx : DB) (sv : List SavedLabel),
        (restore_user_labels dbx sv).samples = dbx.samples from fun _ _ => rfl]
    rw [show ∀ dbx : DB, (setAllInactive dbx).samples = dbx.samples from fun _ => rfl]
    exact samples_replay_fold today _ _
set_option maxHeartbeats 1000000 in
theorem reanalyze_summary_of_samples (today : ℤ) (det det' : Detector) (db db' : DB)
    (hs : db'.samples = db.samples) :
    (reanalyze today det' db').2.2 = (reanalyze today det db).2.2 := by
  simp only [reanalyze]
  rw [hs]
  by_cases hnil : sortByKey SampleRow.timestamp db.samples = []
  · rw [if_pos hnil, if_pos hnil]
  · rw [if_neg hnil, if_neg hnil]
    have hwd' : ({ signatures := [], events := [], daily_stats := [], samples := db.samples, next_sig_id := db'.next_sig_id, next_event_id := db'.next_event_id } : DB) =
        shiftDB db'.next_sig_id db'.next_event_id { signatures := [], events := [], daily_stats := [], samples := db.samples, next_sig_id := 0, next_event_id := 0 } := by
      simp [shiftDB]
    have hwd : ({ signatures := [], events := [], daily_stats := [], samples := db.samples, next_sig_id := db.next_sig_id, next_event_id := db.next_event_id } : DB) =
        shiftDB db.next_sig_id db.next_event_id { signatures := [], events := [], daily_stats := [], samples := db.samples, next_sig_id := 0, next_event_id := 0 } := by
      simp [shiftDB]
    rw [hwd', hwd]
    rw [replay_fold_shift db'.next_sig_id db'.next_event_id today
      (sortByKey SampleRow.timestamp db.samples)
      (initDetector, { signatures := [], events := [], daily_stats := [], samples := db.samples, next_sig_id := 0, next_event_id := 0 }, 0)]
    rw [replay_fold_shift db.next_sig_id db.next_event_id today
      (sortByKey SampleRow.timestamp db.samples)
      (initDetector, { signatures := [], events := [], daily_stats := [], samples := db.samples, next_sig_id := 0, next_event_id := 0 }, 0)]
    simp [setAllInactive, shiftDB]

/-- C9: `reanalyze` is deterministic as a function of the stored raw
samples: the reported summary depends only on the `load_samples` rows — the
AUTOINCREMENT counters the two runs start from differ, but every engine
operation is equivariant under uniformly shifting signature and event ids
(`shiftDB`) — so a second run over the unchanged samples table reports the
same sample count, event count and signature count. -/
theorem C9_reanalyze_deterministic :
    (∀ (today : ℤ) (det det' : Detector) (db db' : DB), db'.samples = db.samples →
        (reanalyze today det' db').2.2 = (reanalyze today det db).2.2) ∧
    (∀ (today : ℤ) (det : Detector) (db : DB),
        (reanalyze today (reanalyze today det db).1 (reanalyze today det db).2.1).2.2 =
          (reanalyze today det db).2.2) :=
  ⟨fun today det det' db db' hs => reanalyze_summary_of_samples today det det' db db' hs,
   fun today det db => reanalyze_summary_of_samples today det (reanalyze today det db).1 db
     (reanalyze today det db).2.1 (samples_reanalyze today det db)⟩

theorem C9_witness :
    c4db.samples = c4db.samples ∧
    (reanalyze 5 initDetector c4db).2.2 = (reanalyze 5 c4det c4db).2.2 :=
  ⟨rfl, C9_reanalyze_deterministic.1 5 c4det initDetector c4db c4db rfl⟩

end Nilm
